import Mathlib

/-!
Verification development for the image-request core of a serverless image
handler (file `image-request.js`).  The JavaScript code is shallowly embedded:
strings are lists of characters, JavaScript objects holding edit operations are
insertion-ordered association lists, fallible steps return `Except`, and the
ECMAScript / Node builtins that the code calls (`JSON.parse`, `RegExp`
compilation and replacement, `decodeURIComponent`, `crypto.createHmac`,
`Date#toUTCString`, the AWS SDK S3 client, the secret provider and the
external `thumbor-mapper` module) are supplied as oracle fields of a `Sys`
record, so every repository-owned computation is modelled concretely while
platform builtins stay parameters.
-/

namespace ImageHandler


/-- JavaScript strings, modelled as lists of characters. -/
abbrev JStr := List Char

/-- Convenience conversion from Lean string literals. -/
def str (s : String) : JStr := s.data

/-- The request dialects from `lib.RequestTypes`.
Modelled from the spec: the `lib` module is not part of the provided source;
the spec fixes the three dialects Default / Thumbor / Custom. -/
inductive RequestTypes where
  | DEFAULT
  | THUMBOR
  | CUSTOM
deriving DecidableEq, Repr

/-- A JSON-derived JavaScript value as it appears in decoded request records
and edit maps.  Numbers are rationals (JSON number literals are finite
decimals, modelled exactly); strings, booleans and null are explicit;
`jsObj primStr` stands for an object or an array and carries the value's
ToPrimitive image (the string its `toString` produces: `"[object Object]"`
for a plain object, the comma-joined element list for an array), which is
all that JavaScript numeric and string coercion inspect on such values. -/
inductive JsVal where
  | jsStr (s : JStr)
  | jsNum (q : ℚ)
  | jsBool (b : Bool)
  | jsNull
  | jsObj (primStr : JStr)
deriving DecidableEq, Repr

/-- JavaScript truthiness of a `JsVal`; objects and arrays are always
truthy. -/
def jsTruthy : JsVal → Bool
  | .jsStr s => s ≠ []
  | .jsNum q => q ≠ 0
  | .jsBool b => b
  | .jsNull => false
  | .jsObj _ => true

/-- JavaScript string coercion; only string values are ever coerced on the
code paths the claims exercise, so numbers map to a fixed marker. -/
def jsToStr : JsVal → JStr
  | .jsStr s => s
  | .jsNum _ => str "[number]"
  | .jsBool b => if b then str "true" else str "false"
  | .jsNull => str "null"
  | .jsObj p => p

/-- An edit-operation object: an insertion-ordered association list with
(unique) string keys, matching a JavaScript object with non-numeric keys. -/
abbrev Edits := List (JStr × JsVal)

/-- The record obtained by base64-decoding and JSON-parsing a Default-dialect
path (`decodeRequest`); absent properties are `none` (JS `undefined`). -/
structure DecodedRequest where
  bucket : Option JStr
  key : Option JStr
  edits : Option Edits
  headers : Option JsVal
  outputFormat : Option JsVal
  reductionEffort : Option JsVal
deriving DecidableEq, Repr

/-- An error raised by the S3 client oracle (`error.code` / `error.message`). -/
structure S3Error where
  code : JStr
  message : JStr
deriving DecidableEq, Repr

/-- The result of a successful `s3Client.getObject(...)`. -/
structure S3Object where
  Body : List Nat
  ContentType : Option JStr
  CacheControl : Option JStr
  Expires : Option JStr
  LastModified : Option JStr
deriving DecidableEq, Repr

/-- Errors that can escape the embedded functions: `ImageHandlerError`
carries an HTTP status, a machine code and a message; the remaining
constructors model native JavaScript exceptions (property access on
`undefined`, invalid `RegExp` construction, `decodeURIComponent` failure). -/
inductive JsErr where
  | handler (status : Nat) (code : JStr) (message : JStr)
  | typeError
  | syntaxError
  | regexSyntax
  | uriError
deriving DecidableEq, Repr

/-- Model of `error.code` as read by JavaScript: only `ImageHandlerError`s have one. -/
def JsErr.codeOf : JsErr → Option JStr
  | .handler _ c _ => some c
  | _ => none

/-- The request-event headers that this core reads. -/
structure EventHeaders where
  Accept : Option JStr
deriving DecidableEq, Repr

/-- Query-string parameters; only `signature` is read. -/
structure QueryParams where
  signature : Option JStr
deriving DecidableEq, Repr

/-- A Lambda request event as consumed by this core. -/
structure Event where
  path : JStr
  headers : EventHeaders
  queryStringParameters : Option QueryParams
deriving DecidableEq, Repr

/-- The process environment variables this core reads (`process.env`);
`none` models an unset variable. -/
structure Env where
  REWRITE_MATCH_PATTERN : Option JStr
  REWRITE_SUBSTITUTION : Option JStr
  SOURCE_BUCKETS : Option JStr
  DEFAULT_FALLBACK_IMAGE_BUCKET : Option JStr
  AUTO_WEBP : Option JStr
  ENABLE_SIGNATURE : Option JStr
  SECRETS_MANAGER : Option JStr
  SECRET_KEY : Option JStr
deriving DecidableEq, Repr

/-- The ambient system: the environment plus oracles for every platform
builtin and external collaborator the code calls.
* `jsonOfB64 s` models `JSON.parse(Buffer.from(s, 'base64').toString())`:
  `none` when `JSON.parse` throws.
* `regexReplace pattern flags substitution path` models
  `path.replace(new RegExp(pattern, flags), substitution)`, erring when the
  `RegExp` constructor throws.
* `regexTest pattern s` models `s.match(new RegExp(pattern)) !== null`.
* `decodeURIComp` models `decodeURIComponent`.
* `jsonSecret` models `JSON.parse` of the secret blob as a string-valued
  property lookup table (`none` when parsing throws).
* `hmacSha256Hex key data` models
  `createHmac('sha256', key).update(data).digest('hex')`.
* `toUTCString` models `new Date(x).toUTCString()`.
* `s3GetObject bucket key` models `s3Client.getObject({Bucket, Key})`.
* `getSecret` models `secretProvider.getSecret`.
* `mapPathToEdits` / `parseCustomPath` model the external `thumbor-mapper`
  module (its source is not part of this repository core). -/
structure Sys where
  env : Env
  jsonOfB64 : JStr → Option DecodedRequest
  regexReplace : JStr → JStr → JStr → JStr → Except JsErr JStr
  regexTest : JStr → JStr → Except JsErr Bool
  decodeURIComp : JStr → Except JsErr JStr
  jsonSecret : JStr → Option (JStr → Option JStr)
  hmacSha256Hex : JStr → JStr → JStr
  toUTCString : JStr → JStr
  s3GetObject : Option JStr → JStr → Except S3Error S3Object
  getSecret : Option JStr → Except JsErr JStr
  mapPathToEdits : JStr → Edits
  parseCustomPath : JStr → JStr

/-- Decidable equality of `Except` values, used to evaluate the model on
concrete inputs. -/
instance exceptDecEq {ε α : Type} [DecidableEq ε] [DecidableEq α] :
    DecidableEq (Except ε α)
  | .ok a, .ok b =>
    if h : a = b then .isTrue (by rw [h])
    else .isFalse (fun hh => h (Except.ok.inj hh))
  | .ok _, .error _ => .isFalse (fun hh => Except.noConfusion hh)
  | .error _, .ok _ => .isFalse (fun hh => Except.noConfusion hh)
  | .error a, .error b =>
    if h : a = b then .isTrue (by rw [h])
    else .isFalse (fun hh => h (Except.error.inj hh))

/-- Returns `true` exactly on `Except.ok`. -/
def exOk {ε α : Type} : Except ε α → Bool
  | .ok _ => true
  | .error _ => false

/-- Error thrown by `decodeRequest` when the event has no path. -/
def cannotReadPathError : JsErr :=
  .handler 400 (str "DecodeRequest::CannotReadPath")
    (str "The URL path you provided could not be read. Please ensure that it is properly formed according to the solution documentation.")

/-- Error thrown by `decodeRequest` when base64/JSON decoding fails. -/
def cannotDecodeRequestError : JsErr :=
  .handler 400 (str "DecodeRequest::CannotDecodeRequest")
    (str "The image request you provided could not be decoded. Please check that your request is base64 encoded properly and refer to the documentation for additional guidance.")

/-- Model of `ImageRequest.decodeRequest`: strip one leading slash, base64-decode and
JSON-parse the path. -/
def decodeRequest (sys : Sys) (event : Event) : Except JsErr DecodedRequest :=
  if event.path = [] then .error cannotReadPathError
  else
    let encoded := if event.path.head? = some '/' then event.path.drop 1 else event.path
    match sys.jsonOfB64 encoded with
    | some r => .ok r
    | none => .error cannotDecodeRequestError

/-- A character of the strict base64 alphabet `[0-9a-zA-Z+/]`. -/
def isB64Char (c : Char) : Bool := c.isAlphanum || c = '+' || c = '/'

/-- The body of the `matchDefault` grammar:
`([0-9a-zA-Z+/]{4})*(([0-9a-zA-Z+/]{2}==)|([0-9a-zA-Z+/]{3}=))?`.
A string matches iff its length is a multiple of 4 and it is all-alphabet,
or alphabet padded by a final `==` or a final `=`. -/
def matchDefaultBody (cs : JStr) : Bool :=
  cs.length % 4 = 0 &&
  (cs.all isB64Char ||
   (cs.reverse.take 2 = ['=', '='] && (cs.take (cs.length - 2)).all isB64Char) ||
   (cs.reverse.take 1 = ['='] && (cs.take (cs.length - 1)).all isB64Char))

/-- The regex `matchDefault` of `parseRequestType`:
`^(\/?)([0-9a-zA-Z+/]{4})*(([0-9a-zA-Z+/]{2}==)|([0-9a-zA-Z+/]{3}=))?$`.
The leading `/` may be consumed by the optional group or (being in the
alphabet) by the body, hence the disjunction. -/
def matchDefault (path : JStr) : Bool :=
  matchDefaultBody path ||
    (path.head? = some '/' && matchDefaultBody (path.drop 1))

/-- Lower-cased copy of a character list (for the `/i` regex flag). -/
def toLowerList (cs : JStr) : JStr := cs.map Char.toLower

/-- No character is a newline (regex `.` does not match `\n`). -/
def noNL (cs : JStr) : Bool := cs.all (fun c => c ≠ '\n')

/-- The lookahead body `\.[^.\\/]+$` of the Thumbor grammar: a dot followed
by one or more characters none of which is `.`, `\` or `/`, up to the end. -/
def suspSuffix : JStr → Bool
  | '.' :: rest => rest ≠ [] && rest.all (fun c => c ≠ '.' && c ≠ '\\' && c ≠ '/')
  | _ => false

/-- First alternative of the Thumbor grammar tail, `(.(?!(\.[^.\\/]+$)))*$`:
consume every remaining character, each one not a newline and not standing
immediately before an extension-like suffix. -/
def thumborTail1 : JStr → Bool
  | [] => true
  | c :: rest => c ≠ '\n' && !(suspSuffix rest) && thumborTail1 rest

/-- Second alternative of the Thumbor grammar tail,
`.*(\.jpg$|.\.png$|\.webp$|\.tiff$|\.jpeg$|\.svg$)` under the `/i` flag:
the text ends in a recognized extension (for `.png` with at least one
character before it) and everything up to the extension is newline-free. -/
def thumborTail2 (cs : JStr) : Bool :=
  let ls := toLowerList cs
  let n := cs.length
  ((str ".jpg").isSuffixOf ls && noNL (ls.take (n - 4))) ||
  ((str ".png").isSuffixOf ls && decide (5 ≤ n) && noNL (ls.take (n - 4))) ||
  ((str ".webp").isSuffixOf ls && noNL (ls.take (n - 5))) ||
  ((str ".tiff").isSuffixOf ls && noNL (ls.take (n - 5))) ||
  ((str ".jpeg").isSuffixOf ls && noNL (ls.take (n - 5))) ||
  ((str ".svg").isSuffixOf ls && noNL (ls.take (n - 4)))

/-- Tail of the Thumbor grammar (third group of the regex). -/
def thumborTailMatch (cs : JStr) : Bool := thumborTail1 cs || thumborTail2 cs

/-- Case-insensitive literal prefix test (for the `/i` flag). -/
def lcStartsWith (cs : JStr) (p : String) : Bool :=
  (str p).isPrefixOf (toLowerList cs)

/-- All remainders obtainable by consuming `filters:.+\(.?\)` from the front
of `cs` (every backtracking choice of the greedy `.+` and optional `.?`). -/
def filtersRests (cs : JStr) : List JStr :=
  if lcStartsWith cs "filters:" then
    let t := cs.drop 8
    (List.range t.length).flatMap (fun jj =>
      let j := jj + 1
      if (t.take j).all (fun c => c ≠ '\n') then
        let after := t.drop j
        (match after with
         | '(' :: ')' :: rest => [rest]
         | _ => []) ++
        (match after with
         | '(' :: o :: ')' :: rest => if o = '\n' then [] else [rest]
         | _ => [])
      else [])
  else []

/-- All remainders obtainable by consuming the second group
`((fit-in)?|(filters:.+\(.?\))?|(unsafe)?)` of the Thumbor regex. -/
def bRests (cs : JStr) : List JStr :=
  (if lcStartsWith cs "fit-in" then [cs.drop 6] else []) ++
  (if lcStartsWith cs "unsafe" then [cs.drop 6] else []) ++
  filtersRests cs

/-- All remainders obtainable by consuming the optional leading `/` and the
second group of the Thumbor regex; the empty consumption is always allowed. -/
def thumborStarts (path : JStr) : List JStr :=
  ([path] ++ bRests path) ++
  (match path with
   | '/' :: rest => [rest] ++ bRests rest
   | _ => [])

/-- The regex `matchThumbor` of `parseRequestType`:
`^(\/?)((fit-in)?|(filters:.+\(.?\))?|(unsafe)?)(((.(?!(\.[^.\\/]+$)))*$)|.*(\.jpg$|.\.png$|\.webp$|\.tiff$|\.jpeg$|\.svg$))/i`. -/
def matchThumbor (path : JStr) : Bool :=
  (thumborStarts path).any thumborTailMatch

/-- The `definedEnvironmentVariables` of `parseRequestType`: both rewrite
variables are defined and non-empty. -/
def definedEnvironmentVariables (env : Env) : Bool :=
  env.REWRITE_MATCH_PATTERN != some [] && env.REWRITE_SUBSTITUTION != some [] &&
  env.REWRITE_MATCH_PATTERN != none && env.REWRITE_SUBSTITUTION != none

/-- Error thrown by `parseRequestType` when no dialect applies. -/
def requestTypeError : JsErr :=
  .handler 400 (str "RequestTypeError")
    (str "The type of request you are making could not be processed. Please ensure that your original image is of a supported file type (jpg, png, tiff, webp, svg) and that your image request is provided in the correct syntax. Refer to the documentation for additional guidance on forming image requests.")

/-- Model of `ImageRequest.parseRequestType`: classify the request dialect. -/
def parseRequestType (sys : Sys) (event : Event) : Except JsErr RequestTypes :=
  let isBase64Encoded := exOk (decodeRequest sys event)
  if matchDefault event.path && isBase64Encoded then .ok .DEFAULT
  else if definedEnvironmentVariables sys.env then .ok .CUSTOM
  else if matchThumbor event.path then .ok .THUMBOR
  else .error requestTypeError

/-- ASCII whitespace as matched by the regex class `\s`. -/
def isJsWs (c : Char) : Bool :=
  c = ' ' || c = '\t' || c = '\n' || c = '\r' || c = '\x0b' || c = '\x0c'

/-- JavaScript `String#split` with a one-character separator; splitting the
empty string yields `[""]`, as in JavaScript. -/
def jsSplitChar (sep : Char) : JStr → List JStr
  | [] => [[]]
  | c :: cs =>
    match jsSplitChar sep cs with
    | [] => [[]]
    | h :: t => if c = sep then [] :: h :: t else (c :: h) :: t

/-- JavaScript `String#includes`: `jsIncludes target hay` is true when
`target` occurs as a contiguous substring of `hay`. -/
def jsIncludes (target : JStr) : JStr → Bool
  | [] => target == []
  | c :: rest => target.isPrefixOf (c :: rest) || jsIncludes target rest

/-- Error thrown when the `SOURCE_BUCKETS` variable is unset. -/
def noSourceBucketsError : JsErr :=
  .handler 400 (str "GetAllowedSourceBuckets::NoSourceBuckets")
    (str "The SOURCE_BUCKETS variable could not be read. Please check that it is not empty and contains at least one source bucket, or multiple buckets separated by commas. Spaces can be provided between commas and bucket names, these will be automatically parsed out when decoding.")

/-- Model of `ImageRequest.getAllowedSourceBuckets`: strip all whitespace from the
`SOURCE_BUCKETS` variable and split on commas. -/
def getAllowedSourceBuckets (env : Env) : Except JsErr (List JStr) :=
  match env.SOURCE_BUCKETS with
  | none => .error noSourceBucketsError
  | some s => .ok (jsSplitChar ',' (s.filter (fun c => !(isJsWs c))))

/-- Model of `ImageRequest.checkImageBucket`: fold over the allow-list, remembering
every entry that contains the target alias as a substring — the last match
survives — and fall back to `DEFAULT_FALLBACK_IMAGE_BUCKET`. -/
def checkImageBucket (env : Env) (sourceBuckets : List JStr) (targetBucket : JStr) :
    Option JStr :=
  sourceBuckets.foldl
    (fun acc cur => if jsIncludes targetBucket cur then some cur else acc)
    env.DEFAULT_FALLBACK_IMAGE_BUCKET

/-- Error thrown when a Default-dialect explicit bucket is not allowed. -/
def cannotAccessBucketError : JsErr :=
  .handler 403 (str "ImageBucket::CannotAccessBucket")
    (str "The bucket you specified could not be accessed. Please check that the bucket is specified in your SOURCE_BUCKETS.")

/-- Model of `ImageRequest.parseImageBucket`.  The `targetBucket` is the first
`/`-separated segment of the key (`image_key.split('/')[0]`); an undefined
key raises a native `TypeError` at that point.  In the Default dialect an
explicit decoded bucket is accepted when it is an allow-list member or when
it matches `new RegExp('^' + sourceBuckets[0] + '$')`; the classifier only
ever produces the three dialect values, so the unreachable
`CannotFindBucket` arm of the source has no counterpart here. -/
def parseImageBucket (sys : Sys) (event : Event) (requestType : RequestTypes)
    (image_key : Option JStr) : Except JsErr (Option JStr) :=
  match getAllowedSourceBuckets sys.env with
  | .error e => .error e
  | .ok sourceBuckets =>
    match image_key with
    | none => .error .typeError
    | some k =>
      match requestType with
      | .DEFAULT =>
        match decodeRequest sys event with
        | .error e => .error e
        | .ok request =>
          match request.bucket with
          | some b =>
            if sourceBuckets.contains b then .ok (some b)
            else
              match sys.regexTest (str "^" ++ sourceBuckets.headD [] ++ str "$") b with
              | .error e => .error e
              | .ok true => .ok (some b)
              | .ok false => .error cannotAccessBucketError
          | none =>
            .ok (checkImageBucket sys.env sourceBuckets (k.takeWhile (fun c => c ≠ '/')))
      | .THUMBOR =>
        .ok (checkImageBucket sys.env sourceBuckets (k.takeWhile (fun c => c ≠ '/')))
      | .CUSTOM =>
        .ok (checkImageBucket sys.env sourceBuckets (k.takeWhile (fun c => c ≠ '/')))

/-- A fixed system used to witness classification: rewrite configuration is
set (both variables defined and non-empty) and base64/JSON decoding of any
path succeeds. -/
def sysC1 : Sys where
  env :=
    { REWRITE_MATCH_PATTERN := some (str "/a/")
      REWRITE_SUBSTITUTION := some (str "/b/")
      SOURCE_BUCKETS := some (str "bkt")
      DEFAULT_FALLBACK_IMAGE_BUCKET := none
      AUTO_WEBP := none
      ENABLE_SIGNATURE := none
      SECRETS_MANAGER := none
      SECRET_KEY := none }
  jsonOfB64 := fun _ =>
    some { bucket := none, key := some (str "k.jpg"), edits := none,
           headers := none, outputFormat := none, reductionEffort := none }
  regexReplace := fun _ _ _ p => .ok p
  regexTest := fun _ _ => .ok false
  decodeURIComp := fun s => .ok s
  jsonSecret := fun _ => none
  hmacSha256Hex := fun _ _ => []
  toUTCString := fun s => s
  s3GetObject := fun _ _ => .error ⟨str "NoSuchKey", str "missing"⟩
  getSecret := fun _ => .error .typeError
  mapPathToEdits := fun _ => []
  parseCustomPath := fun s => s

/-- Anchored-pattern matcher for patterns built from literal characters and
the `.` wildcard (which, as in JavaScript, matches any character except a
newline); faithful to `new RegExp('^' + p + '$').test(s)` for such `p`. -/
def dotPatAux : JStr → JStr → Bool
  | [], [] => true
  | p :: ps, c :: cs => ((p == '.' && c != '\n') || p == c) && dotPatAux ps cs
  | _, _ => false

/-- Interpret `^body$` patterns via `dotPatAux`. -/
def dotPatMatch (pat inp : JStr) : Bool :=
  match pat with
  | '^' :: rest => (rest.getLast? == some '$') && dotPatAux rest.dropLast inp
  | _ => false

/-- Event whose (arbitrary, non-empty) path stands for a base64 blob. -/
def mkEvent (p : String) : Event :=
  { path := str p, headers := { Accept := none }, queryStringParameters := none }

/-- System for the C2 counterexample: the allow-list is the single entry
`a.c`, whose dot is a regex wildcard, and the decoded record names bucket
`abc`. -/
def sysC2 : Sys :=
  { sysC1 with
    env := { sysC1.env with
      SOURCE_BUCKETS := some (str "a.c")
      REWRITE_MATCH_PATTERN := none
      REWRITE_SUBSTITUTION := none }
    jsonOfB64 := fun _ =>
      some { bucket := some (str "abc"), key := some (str "x/y.jpg"),
             edits := none, headers := none, outputFormat := none,
             reductionEffort := none }
    regexTest := fun pat s => .ok (dotPatMatch pat s) }

/-- Modelled from the spec: "return the first allow-list entry containing
that alias as a substring, else the configured fallback bucket" — the
resolver behaviour the spec describes, for comparison with
`checkImageBucket`. -/
def specFirstMatchBucket (sourceBuckets : List JStr) (target : JStr)
    (fallback : Option JStr) : Option JStr :=
  ((sourceBuckets.find? (fun b => jsIncludes target b)).orElse (fun _ => fallback))

/-- The value `checkImageBucket` actually computes: the last allow-list
entry containing the alias, else the fallback. -/
def lastMatchBucket (sourceBuckets : List JStr) (target : JStr)
    (fallback : Option JStr) : Option JStr :=
  ((sourceBuckets.reverse.find? (fun b => jsIncludes target b)).orElse (fun _ => fallback))

/-- System for the C6 counterexample: allow-list `ab,abc`, fallback unset. -/
def sysC6 : Sys :=
  { sysC1 with
    env := { sysC1.env with
      SOURCE_BUCKETS := some (str "ab,abc")
      REWRITE_MATCH_PATTERN := none
      REWRITE_SUBSTITUTION := none } }

/-- The fallback key computed in `setup` when the trial fetch fails:
`originKey.substring(0, originKey.lastIndexOf('/') + 1) + 'default.jpg'`,
i.e. the directory prefix (through the last slash, empty when there is no
slash) followed by `default.jpg`. -/
def retryKey (originKey : JStr) : JStr :=
  (originKey.reverse.dropWhile (fun c => c ≠ '/')).reverse ++ str "default.jpg"

/-- The key that survives the trial fetch of `setup` (lines wrapping the
first `getObject` in a bare `try`/`catch`): unchanged when the fetch
succeeds, rewritten to the per-directory default on *any* failure. -/
def trialKey (sys : Sys) (bucket : Option JStr) (key : JStr) : JStr :=
  match sys.s3GetObject bucket key with
  | .ok _ => key
  | .error _ => retryKey key

/-- Lowercase hexadecimal digit. -/
def hexDigitL (n : Nat) : Char := "0123456789abcdef".data.getD (n % 16) '0'

/-- Lowercase hexadecimal rendering of one byte (`Buffer#toString('hex')`). -/
def hexByteL (b : Nat) : JStr := [hexDigitL ((b / 16) % 16), hexDigitL b]

/-- The uppercase hex signature of the first four payload bytes, as computed
by `imageBuffer.slice(0, 4).toString('hex').toUpperCase()`. -/
def hexSignature (imageBuffer : List Nat) : JStr :=
  ((imageBuffer.take 4).flatMap hexByteL).map Char.toUpper

/-- Error thrown by `inferImageType` on an unrecognized signature. -/
def inferTypeError : JsErr :=
  .handler 500 (str "RequestTypeError")
    (str "The file does not have an extension and the file type could not be inferred. Please ensure that your original image is of a supported file type (jpg, png, tiff, webp, svg). Refer to the documentation for additional guidance on forming image requests.")

/-- Model of `ImageRequest.inferImageType`: classify a payload by the uppercase hex
signature of its first four bytes. -/
def inferImageType (imageBuffer : List Nat) : Except JsErr JStr :=
  if hexSignature imageBuffer = str "89504E47" then .ok (str "image/png")
  else if hexSignature imageBuffer = str "FFD8FFDB" then .ok (str "image/jpeg")
  else if hexSignature imageBuffer = str "FFD8FFE0" then .ok (str "image/jpeg")
  else if hexSignature imageBuffer = str "FFD8FFEE" then .ok (str "image/jpeg")
  else if hexSignature imageBuffer = str "FFD8FFE1" then .ok (str "image/jpeg")
  else if hexSignature imageBuffer = str "52494646" then .ok (str "image/webp")
  else if hexSignature imageBuffer = str "49492A00" then .ok (str "image/tiff")
  else if hexSignature imageBuffer = str "4D4D002A" then .ok (str "image/tiff")
  else .error inferTypeError

/-- The metadata `getOriginalImage` merges into the request descriptor. -/
structure OriginalImage where
  contentType : JStr
  expires : Option JStr
  lastModified : Option JStr
  cacheControl : JStr
  originalImage : List Nat
deriving DecidableEq, Repr

/-- Model of `ImageRequest.getOriginalImage`: fetch the object; derive the content
type (sniffing octet-stream types, `'image'` when storage reports none),
format timestamps, default the cache control; map a `NoSuchKey` failure to
a 404 with the template message and any other failure to a 500 carrying the
underlying code and message. -/
def getOriginalImage (sys : Sys) (bucket : Option JStr) (key : JStr) :
    Except JsErr OriginalImage :=
  match sys.s3GetObject bucket key with
  | .ok originalImage =>
    let ctE : Except JsErr JStr :=
      match originalImage.ContentType with
      | some ct =>
        if ct ≠ [] then
          if ct = str "binary/octet-stream" ∨ ct = str "application/octet-stream" then
            inferImageType originalImage.Body
          else .ok ct
        else .ok (str "image")
      | none => .ok (str "image")
    match ctE with
    | .error e => .error e
    | .ok ct =>
      .ok { contentType := ct
            expires := originalImage.Expires.map sys.toUTCString
            lastModified := originalImage.LastModified.map sys.toUTCString
            cacheControl := originalImage.CacheControl.getD (str "max-age=31536000,public")
            originalImage := originalImage.Body }
  | .error e =>
    if e.code = str "NoSuchKey" then
      .error (.handler 404 e.code
        (str "The image " ++ key ++
         str " does not exist or the request may not be base64 encoded properly."))
    else .error (.handler 500 e.code e.message)

/-- System for the C3 counterexample: every fetch fails with `AccessDenied`,
a failure that is not a not-found. -/
def sysC3 : Sys :=
  { sysC1 with s3GetObject := fun _ _ => .error ⟨str "AccessDenied", str "Access Denied"⟩ }

/-- Error thrown when signing is enabled and `signature` is missing. -/
def authParamsError : JsErr :=
  .handler 400 (str "AuthorizationQueryParametersError")
    (str "Query-string requires the signature parameter.")

/-- Error thrown on an HMAC mismatch. -/
def signatureDoesNotMatchError : JsErr :=
  .handler 403 (str "SignatureDoesNotMatch") (str "Signature does not match.")

/-- Error that coerces every other signature-check failure. -/
def signatureValidationFailureError : JsErr :=
  .handler 500 (str "SignatureValidationFailure") (str "Signature validation failed.")

/-- The `try` block of `validateRequestSignature`: retrieve the secret blob,
JSON-parse it (a parse failure is a native `SyntaxError`), extract the
signing key by the configured field name (an `undefined` field name reads
property `"undefined"`; a missing key makes `createHmac` throw a native
`TypeError`), compute the hex HMAC-SHA256 of the raw path and require exact
equality. -/
def signatureTryBody (sys : Sys) (path : JStr) (sg : JStr) : Except JsErr Unit :=
  match sys.getSecret sys.env.SECRETS_MANAGER with
  | .error e => .error e
  | .ok secretString =>
    match sys.jsonSecret secretString with
    | none => .error .syntaxError
    | some secret =>
      match secret (sys.env.SECRET_KEY.getD (str "undefined")) with
      | none => .error .typeError
      | some key =>
        if sg ≠ sys.hmacSha256Hex key path then .error signatureDoesNotMatchError
        else .ok ()

/-- Model of `ImageRequest.validateRequestSignature`: a no-op unless
`ENABLE_SIGNATURE === 'Yes'`; requires a truthy `signature` query
parameter; re-raises a `SignatureDoesNotMatch` failure of the try block
verbatim and coerces every other failure to `SignatureValidationFailure`. -/
def validateRequestSignature (sys : Sys) (event : Event) : Except JsErr Unit :=
  if sys.env.ENABLE_SIGNATURE = some (str "Yes") then
    match event.queryStringParameters with
    | none => .error authParamsError
    | some q =>
      match q.signature with
      | none => .error authParamsError
      | some sg =>
        if sg = [] then .error authParamsError
        else
          match signatureTryBody sys event.path sg with
          | .ok _ => .ok ()
          | .error e =>
            if e.codeOf = some (str "SignatureDoesNotMatch") then .error e
            else .error signatureValidationFailureError
  else .ok ()

/-- System for the C4 witness: signing enabled, a concrete secret table and
a deterministic stand-in HMAC. -/
def sysC4 : Sys :=
  { sysC1 with
    env := { sysC1.env with
      ENABLE_SIGNATURE := some (str "Yes")
      SECRETS_MANAGER := some (str "secret-id")
      SECRET_KEY := some (str "k")
      REWRITE_MATCH_PATTERN := none
      REWRITE_SUBSTITUTION := none }
    getSecret := fun _ => .ok (str "blob")
    jsonSecret := fun _ => some (fun f => if f = str "k" then some (str "hunter2") else none)
    hmacSha256Hex := fun key data => key ++ data }

/-- JavaScript `String#slice` index normalisation: negative indices count
from the end and everything is clamped to `[0, n]`. -/
def jsSliceIdx (i : Int) (n : Nat) : Nat :=
  if i < 0 then (n + i).toNat else min i.toNat n

/-- JavaScript `String#slice(s, e)`. -/
def jsSliceList (l : JStr) (s e : Int) : JStr :=
  (l.drop (jsSliceIdx s l.length)).take (jsSliceIdx e l.length - jsSliceIdx s l.length)

/-- JavaScript `String#replace` with a string pattern: replace the first
occurrence of `pat` (at position 0 when `pat` is empty), leave the string
unchanged when `pat` does not occur.  Dollar-escape expansion in the
replacement is not modelled; no claim exercises it. -/
def jsReplaceLiteral (pat sub : JStr) : JStr → JStr
  | [] => if pat = [] then sub else []
  | c :: rest =>
    if pat.isPrefixOf (c :: rest) then sub ++ (c :: rest).drop pat.length
    else c :: jsReplaceLiteral pat sub rest

/-- The RegExp flags accepted by the Node 14 runtime: `g i m s u y`, no
duplicates. -/
def jsFlagsValid (flags : JStr) : Bool :=
  flags.all (fun c => c = 'g' || c = 'i' || c = 'm' || c = 's' || c = 'u' || c = 'y') &&
    decide flags.Nodup

/-- The Custom-dialect rewrite step of `ImageRequest.parseImageKey`
(the `REWRITE_MATCH_PATTERN` block): when the configured pattern is a
defined string — which every environment value is — split on `/`, pop the
final segment as flags, slice out the text between the first character and
the flag suffix as the pattern, and apply a regular-expression
substitution; only an undefined pattern reaches the literal-replace branch
(where JavaScript coerces `undefined` to the string `"undefined"`). -/
def customRewrite (sys : Sys) (path : JStr) : Except JsErr JStr :=
  match sys.env.REWRITE_MATCH_PATTERN with
  | some pat =>
    let flags := (jsSplitChar '/' pat).getLastD []
    let parsedPatternString :=
      jsSliceList pat 1 ((pat.length : Int) - 1 - (flags.length : Int))
    sys.regexReplace parsedPatternString flags
      (sys.env.REWRITE_SUBSTITUTION.getD (str "undefined")) path
  | none =>
    .ok (jsReplaceLiteral (str "undefined")
      (sys.env.REWRITE_SUBSTITUTION.getD (str "undefined")) path)

/-- Modelled from the spec: "otherwise treat match-pattern as a literal
substring and perform a single literal replace" — the rewrite behaviour the
spec claims for a configured pattern that is not a delimited regex
literal. -/
def specLiteralRewrite (pat sub path : JStr) : Except JsErr JStr :=
  .ok (jsReplaceLiteral pat sub path)

/-- System for the C5 counterexample: the configured match pattern is the
plain (non-delimited) string `ab`; the RegExp oracle faithfully rejects the
invalid flag string that the code's unconditional `/pattern/flags` parse
extracts from it (`new RegExp("", "ab")` throws in Node, `a` and `b` not
being flag characters). -/
def sysC5 : Sys :=
  { sysC1 with
    env := { sysC1.env with
      REWRITE_MATCH_PATTERN := some (str "ab")
      REWRITE_SUBSTITUTION := some (str "Z") }
    regexReplace := fun _ flags _ path =>
      if jsFlagsValid flags then .ok path else .error .regexSyntax }

/-- System for the C5 witness: a delimited pattern `/a+/gi` and a RegExp
oracle that records its arguments. -/
def sysC5w : Sys :=
  { sysC5 with
    env := { sysC5.env with REWRITE_MATCH_PATTERN := some (str "/a+/gi") }
    regexReplace := fun p f sub path => .ok (p ++ f ++ sub ++ path) }

/-- The aggregate request descriptor (`imageRequestInfo`) produced by
`setup`; optional fields are `undefined` until assigned. -/
structure ImageRequestInfo where
  requestType : RequestTypes
  bucket : Option JStr
  key : JStr
  edits : Option Edits
  headers : Option JsVal
  contentType : JStr
  originalImage : List Nat
  cacheControl : JStr
  expires : Option JStr
  lastModified : Option JStr
  outputFormat : Option JsVal
  reductionEffort : Option Int
deriving DecidableEq, Repr

/-- Property read on a JavaScript object: the value of the first (unique)
entry with the given key. -/
def objGet : Edits → JStr → Option JsVal
  | [], _ => none
  | p :: ps, k => if p.1 = k then some p.2 else objGet ps k

/-- JavaScript `k in obj`. -/
def objHasKey : Edits → JStr → Bool
  | [], _ => false
  | p :: ps, k => if p.1 = k then true else objHasKey ps k

/-- In-place overwrite of every entry carrying key `k` (keys are unique, so
at most one). -/
def objSetMap (k : JStr) (v : JsVal) : Edits → Edits
  | [] => []
  | p :: ps => (if p.1 = k then (k, v) else p) :: objSetMap k v ps

/-- Property assignment on a JavaScript object: an existing key keeps its
position and is overwritten, a new key is appended. -/
def objSet (e : Edits) (k : JStr) (v : JsVal) : Edits :=
  if objHasKey e k then objSetMap k v e else e ++ [(k, v)]

/-- JavaScript `delete obj[k]`. -/
def objDelete : Edits → JStr → Edits
  | [], _ => []
  | p :: ps, k => if p.1 = k then objDelete ps k else p :: objDelete ps k

/-- The `lib.ImageFormatTypes` members accepted as quality-bearing keys
(`acceptedValues` in `setup`). -/
def acceptedFormats : List JStr :=
  [str "jpeg", str "png", str "webp", str "tiff", str "heif"]

/-- The quality-key fix-up block at the end of `setup` (the
`if (imageRequestInfo.outputFormat)` block): set the content type from the
output format; then, for the Custom and Thumbor dialects with a recognized
output format, find the first edit key that is itself a recognized format
and, when it differs from the output format, move its value to the
output-format key and delete it.  In the `jsStr` arm the string coercion
`image/${outputFormat}` is the format name itself; non-string output
formats never pass the `acceptedValues.includes` test. -/
def qualityFix (info : ImageRequestInfo) : Except JsErr ImageRequestInfo :=
  match info.outputFormat with
  | none => .ok info
  | some ofv =>
    if jsTruthy ofv then
      match ofv with
      | .jsStr s =>
        if (info.requestType = .CUSTOM ∨ info.requestType = .THUMBOR) ∧
            s ∈ acceptedFormats then
          match info.edits with
          | none => .error .typeError
          | some e =>
            match ((e.map Prod.fst).filter
                (fun key => decide (key ∈ acceptedFormats))).head? with
            | some qualityKey =>
              if qualityKey ≠ s then
                .ok { info with
                  contentType := str "image/" ++ s
                  edits := some (objDelete
                    (objSet e s ((objGet e qualityKey).getD .jsNull))
                    qualityKey) }
              else .ok { info with contentType := str "image/" ++ s }
            | none => .ok { info with contentType := str "image/" ++ s }
        else .ok { info with contentType := str "image/" ++ s }
      | .jsNum q => .ok { info with contentType := str "image/" ++ jsToStr (.jsNum q) }
      | .jsBool b => .ok { info with contentType := str "image/" ++ jsToStr (.jsBool b) }
      | .jsNull => .ok { info with contentType := str "image/" ++ jsToStr .jsNull }
      | .jsObj p => .ok { info with contentType := str "image/" ++ jsToStr (.jsObj p) }
    else .ok info

/-- Maximal run of leading decimal digits: count and remainder (greedy
`\d+`). -/
def digitsRun : JStr → Nat × JStr
  | [] => (0, [])
  | c :: cs =>
    if c.isDigit then
      let r := digitsRun cs
      (r.1 + 1, r.2)
    else (0, c :: cs)

/-- Pattern `\d+x\d+`: consumed length and remainder. -/
def matchDims (cs : JStr) : Option (Nat × JStr) :=
  match digitsRun cs with
  | (0, _) => none
  | (n1 + 1, r1) =>
    match r1 with
    | 'x' :: r2 =>
      match digitsRun r2 with
      | (0, _) => none
      | (n2 + 1, r3) => some ((n1 + 1) + 1 + (n2 + 1), r3)
    | _ => none

/-- First alternative of the composite key-stripping regex:
`\/\d+x\d+:\d+x\d+\/`. -/
def alt1 (cs : JStr) : Option Nat :=
  match cs with
  | '/' :: r0 =>
    match matchDims r0 with
    | none => none
    | some (l1, r1) =>
      match r1 with
      | ':' :: r2 =>
        match matchDims r2 with
        | none => none
        | some (l2, r3) =>
          match r3 with
          | '/' :: _ => some (1 + l1 + 1 + l2 + 1)
          | _ => none
      | _ => none
  | _ => none

/-- Second alternative, `(?<=\/)\d+x\d+\/`: the lookbehind inspects the
character of the original string before the match position. -/
def alt2 (prev : Option Char) (cs : JStr) : Option Nat :=
  if prev = some '/' then
    match matchDims cs with
    | none => none
    | some (l, r) =>
      match r with
      | '/' :: _ => some (l + 1)
      | _ => none
  else none

/-- Third alternative, `filters:[^/]+` (this composite regex has no `/i`
flag, so the prefix is case-sensitive). -/
def alt3 (cs : JStr) : Option Nat :=
  if (str "filters:").isPrefixOf cs then
    if ((cs.drop 8).takeWhile (fun c => c ≠ '/')).length = 0 then none
    else some (8 + ((cs.drop 8).takeWhile (fun c => c ≠ '/')).length)
  else none

/-- Fourth alternative, `\/fit-in(?=\/)`. -/
def alt4 (cs : JStr) : Option Nat :=
  if (str "/fit-in").isPrefixOf cs then
    match cs.drop 7 with
    | '/' :: _ => some 7
    | _ => none
  else none

/-- Fifth alternative, `^\/+`, only applicable at position 0. -/
def alt5 (atStart : Bool) (cs : JStr) : Option Nat :=
  if atStart then
    if (cs.takeWhile (fun c => c = '/')).length = 0 then none
    else some (cs.takeWhile (fun c => c = '/')).length
  else none

/-- Try the five alternatives of the composite pattern in source order. -/
def tryAlts (prev : Option Char) (atStart : Bool) (cs : JStr) : Option Nat :=
  ((((alt1 cs).orElse (fun _ => alt2 prev cs)).orElse
    (fun _ => alt3 cs)).orElse (fun _ => alt4 cs)).orElse
      (fun _ => alt5 atStart cs)

/-- Global replace-with-empty scan for the composite pattern
`\/\d+x\d+:\d+x\d+\/|(?<=\/)\d+x\d+\/|filters:[^/]+|\/fit-in(?=\/)|^\/+`:
at each position, the leftmost-first alternative match is dropped and
scanning resumes after it; every alternative consumes at least one
character, so a fuel of the string length suffices. -/
def thumborScan : Nat → Option Char → Bool → JStr → JStr
  | 0, _, _, cs => cs
  | fuel + 1, prev, atStart, cs =>
    match cs with
    | [] => []
    | c :: rest =>
      match tryAlts prev atStart (c :: rest) with
      | some (n + 1) =>
        thumborScan fuel (((c :: rest).take (n + 1)).getLast?) false
          ((c :: rest).drop (n + 1))
      | _ => c :: thumborScan fuel (some c) false rest

/-- The `path.replace(<composite pattern>, '')` of `parseImageKey`. -/
def thumborStrip (path : JStr) : JStr := thumborScan path.length none true path

/-- Model of `ImageRequest.parseImageKey`: the Default dialect returns the decoded
record's `key` property (which may be undefined); Thumbor and Custom strip
the recognized path tokens — Custom after the configured rewrite —, remove
leading slashes (`replace(/^\/+/, '')`) and URL-decode the remainder.  The
source computes the identical `result_path` expression twice and discards
the first; both evaluations agree, so one is modelled. -/
def parseImageKey (sys : Sys) (event : Event) (requestType : RequestTypes) :
    Except JsErr (Option JStr) :=
  match requestType with
  | .DEFAULT =>
    match decodeRequest sys event with
    | .error e => .error e
    | .ok d => .ok d.key
  | .THUMBOR =>
    match sys.decodeURIComp ((thumborStrip event.path).dropWhile (fun c => c = '/')) with
    | .error e => .error e
    | .ok r => .ok (some r)
  | .CUSTOM =>
    match customRewrite sys event.path with
    | .error e => .error e
    | .ok path =>
      match sys.decodeURIComp ((thumborStrip path).dropWhile (fun c => c = '/')) with
      | .error e => .error e
      | .ok r => .ok (some r)

/-- Model of `ImageRequest.parseImageEdits`: Default reads the decoded record's
`edits`; Thumbor maps the raw path, Custom the rewritten one, through the
external Thumbor mapper.  The `CannotParseEdits` arm of the source guards
an unrecognized dialect and is unreachable after classification. -/
def parseImageEdits (sys : Sys) (event : Event) (requestType : RequestTypes) :
    Except JsErr (Option Edits) :=
  match requestType with
  | .DEFAULT =>
    match decodeRequest sys event with
    | .error e => .error e
    | .ok d => .ok d.edits
  | .THUMBOR => .ok (some (sys.mapPathToEdits event.path))
  | .CUSTOM => .ok (some (sys.mapPathToEdits (sys.parseCustomPath event.path)))

/-- Model of `ImageRequest.parseImageHeaders`: for the Default dialect, the decoded
record's `headers` when truthy; `undefined` otherwise. -/
def parseImageHeaders (sys : Sys) (event : Event) (requestType : RequestTypes) :
    Except JsErr (Option JsVal) :=
  match requestType with
  | .DEFAULT =>
    match decodeRequest sys event with
    | .error e => .error e
    | .ok d =>
      match d.headers with
      | some h => if jsTruthy h then .ok (some h) else .ok none
      | none => .ok none
  | .THUMBOR => .ok none
  | .CUSTOM => .ok none

/-- Truthiness of a possibly-undefined value. -/
def jsTruthyOpt : Option JsVal → Bool
  | some v => jsTruthy v
  | none => false

/-- The Accept header exists, is non-empty and contains `image/webp`. -/
def acceptsWebp (event : Event) : Bool :=
  match event.headers.Accept with
  | some a => a ≠ [] && jsIncludes (str "image/webp") a
  | none => false

/-- Model of `ImageRequest.getOutputFormat`: `webp` when auto-WebP is configured and
the Accept header admits it; otherwise, for the Default dialect, the
decoded record's `outputFormat`; otherwise null. -/
def getOutputFormat (sys : Sys) (event : Event) (requestType : RequestTypes) :
    Except JsErr (Option JsVal) :=
  if sys.env.AUTO_WEBP = some (str "Yes") ∧ acceptsWebp event = true then
    .ok (some (.jsStr (str "webp")))
  else if requestType = .DEFAULT then
    match decodeRequest sys event with
    | .error e => .error e
    | .ok d => .ok d.outputFormat
  else .ok none

/-- Model of `ImageRequest.DEFAULT_REDUCTION_EFFORT`. -/
def DEFAULT_REDUCTION_EFFORT : Int := 4

/-- Truncation toward zero on rationals (`Math.trunc` on a number). -/
def ratTrunc (q : ℚ) : Int := if 0 ≤ q then ⌊q⌋ else ⌈q⌉

/-- A JavaScript number as ToNumber produces it: NaN, an infinity, or a
finite value.  Finite values are kept as exact rationals; IEEE-754
rounding to the nearest double is not modelled (it can only perturb a
truncation at the edge of the double precision). -/
inductive JsNumber where
  | nan
  | posInf
  | negInf
  | finite (q : ℚ)
deriving DecidableEq, Repr

/-- Characters the ECMAScript StringNumericLiteral grammar trims: WhiteSpace
(tab, VT, FF, space, NBSP, ZWNBSP and the Unicode space separators) and
LineTerminator (LF, CR, LS, PS). -/
def jsStrWsChar (c : Char) : Bool :=
  c = '\t' || c = '\n' || c = '\x0b' || c = '\x0c' || c = '\r' || c = ' ' ||
  c.toNat = 0xA0 || c.toNat = 0x1680 ||
  (0x2000 ≤ c.toNat && c.toNat ≤ 0x200A) ||
  c.toNat = 0x2028 || c.toNat = 0x2029 || c.toNat = 0x202F ||
  c.toNat = 0x205F || c.toNat = 0x3000 || c.toNat = 0xFEFF

/-- Maximal run of digits of a given radix: accumulated value, digit count
and remainder. -/
def radixRun (isD : Char → Bool) (dv : Char → Nat) (b : Nat) :
    JStr → Nat × Nat × JStr
  | [] => (0, 0, [])
  | c :: cs =>
    if isD c then
      let r := radixRun isD dv b cs
      (dv c * b ^ r.2.1 + r.1, r.2.1 + 1, r.2.2)
    else (0, 0, c :: cs)

/-- Maximal run of decimal digits: value, count and remainder. -/
def decDigitsRun : JStr → Nat × Nat × JStr :=
  radixRun Char.isDigit (fun c => c.toNat - '0'.toNat) 10

/-- Whether a character is a hexadecimal digit. -/
def isHexDigitCh (c : Char) : Bool :=
  c.isDigit || ('a' ≤ c && c ≤ 'f') || ('A' ≤ c && c ≤ 'F')

/-- Numeric value of a hexadecimal digit. -/
def hexDigitVal (c : Char) : Nat :=
  if c.isDigit then c.toNat - '0'.toNat
  else if 'a' ≤ c && c ≤ 'f' then c.toNat - 'a'.toNat + 10
  else c.toNat - 'A'.toNat + 10

/-- Optional ExponentPart after a decimal significand: on `e`/`E` a signed
digit run is required (otherwise the whole literal is invalid); the scaled
value and the remainder are returned. -/
def applyExp (q : ℚ) : JStr → Option (JsNumber × JStr)
  | [] => some (.finite q, [])
  | c :: cs =>
    if c = 'e' ∨ c = 'E' then
      let sgnRest : Bool × JStr :=
        match cs with
        | '+' :: r => (false, r)
        | '-' :: r => (true, r)
        | r => (false, r)
      match decDigitsRun sgnRest.2 with
      | (_, 0, _) => none
      | (e, _ + 1, cs2) =>
        some (.finite (if sgnRest.1 then q / (10 : ℚ) ^ e else q * (10 : ℚ) ^ e), cs2)
    else some (.finite q, c :: cs)

/-- ECMAScript StrUnsignedDecimalLiteral: `Infinity`, or decimal digits with
an optional fraction and exponent, or a fraction alone. -/
def parseUnsignedDec (cs : JStr) : Option (JsNumber × JStr) :=
  if (str "Infinity").isPrefixOf cs then some (.posInf, cs.drop 8)
  else
    match decDigitsRun cs with
    | (_, 0, _) =>
      match cs with
      | '.' :: cs2 =>
        match decDigitsRun cs2 with
        | (_, 0, _) => none
        | (f, k + 1, cs3) => applyExp ((f : ℚ) / (10 : ℚ) ^ (k + 1)) cs3
      | _ => none
    | (v, _ + 1, cs2) =>
      match cs2 with
      | '.' :: cs3 =>
        match decDigitsRun cs3 with
        | (f, k, cs4) => applyExp ((v : ℚ) + (f : ℚ) / (10 : ℚ) ^ k) cs4
      | _ => applyExp (v : ℚ) cs2

/-- Negation of a JavaScript number. -/
def negNum : JsNumber → JsNumber
  | .nan => .nan
  | .posInf => .negInf
  | .negInf => .posInf
  | .finite q => .finite (-q)

/-- ECMAScript NonDecimalIntegerLiteral: `0x`/`0X`, `0o`/`0O` or `0b`/`0B`
followed by at least one digit of the radix (no sign allowed). -/
def parseNonDec (cs : JStr) : Option (JsNumber × JStr) :=
  match cs with
  | '0' :: x :: rest =>
    if x = 'x' ∨ x = 'X' then
      match radixRun isHexDigitCh hexDigitVal 16 rest with
      | (_, 0, _) => none
      | (v, _ + 1, r) => some (.finite (v : ℚ), r)
    else if x = 'o' ∨ x = 'O' then
      match radixRun (fun c => '0' ≤ c && c ≤ '7') (fun c => c.toNat - '0'.toNat) 8 rest with
      | (_, 0, _) => none
      | (v, _ + 1, r) => some (.finite (v : ℚ), r)
    else if x = 'b' ∨ x = 'B' then
      match radixRun (fun c => c = '0' || c = '1') (fun c => c.toNat - '0'.toNat) 2 rest with
      | (_, 0, _) => none
      | (v, _ + 1, r) => some (.finite (v : ℚ), r)
    else none
  | _ => none

/-- ECMAScript StrNumericLiteral: a non-decimal integer literal, or an
optionally signed decimal literal (a sign is not allowed on the
non-decimal forms). -/
def parseNumLit (cs : JStr) : Option (JsNumber × JStr) :=
  match parseNonDec cs with
  | some r => some r
  | none =>
    match cs with
    | '+' :: cs2 => parseUnsignedDec cs2
    | '-' :: cs2 =>
      match parseUnsignedDec cs2 with
      | some (n, r) => some (negNum n, r)
      | none => none
    | _ => parseUnsignedDec cs

/-- ECMAScript StringToNumber: trim the StrWhiteSpace from both ends; the
empty remainder is 0; otherwise the remainder must be consumed entirely by
a StrNumericLiteral, else the result is NaN. -/
def strToNumber (s : JStr) : JsNumber :=
  match ((s.dropWhile jsStrWsChar).reverse.dropWhile jsStrWsChar).reverse with
  | [] => .finite 0
  | c :: cs =>
    match parseNumLit (c :: cs) with
    | some (n, []) => n
    | _ => .nan

/-- ECMAScript ToNumber on a JSON-derived value: numbers are themselves,
strings go through StringToNumber, `true`/`false`/`null` are 1/0/0, and an
object or array is coerced through its ToPrimitive string image. -/
def toNumber : JsVal → JsNumber
  | .jsNum q => .finite q
  | .jsStr s => strToNumber s
  | .jsBool b => .finite (if b then 1 else 0)
  | .jsNull => .finite 0
  | .jsObj p => strToNumber p

/-- Result of `Math.trunc`: NaN and the infinities pass through, a finite
value is truncated toward zero to an integer. -/
inductive TruncVal where
  | nan
  | posInf
  | negInf
  | int (i : Int)
deriving DecidableEq, Repr

/-- Model of `Math.trunc(x)` on a JSON value, with the JavaScript ToNumber
coercion applied first. -/
def jsTrunc (v : JsVal) : TruncVal :=
  match toNumber v with
  | .nan => .nan
  | .posInf => .posInf
  | .negInf => .negInf
  | .finite q => .int (ratTrunc q)

/-- The `reductionEffort` stored by `setup`: the truncation when
`!isNaN(re) && re >= 0 && re <= 6` holds, the default 4 otherwise (NaN
fails the first conjunct, `-Infinity` the second, `Infinity` the third). -/
def reductionEffortValue (v : JsVal) : Int :=
  match jsTrunc v with
  | .int re => if 0 ≤ re ∧ re ≤ 6 then re else DEFAULT_REDUCTION_EFFORT
  | .nan => DEFAULT_REDUCTION_EFFORT
  | .posInf => DEFAULT_REDUCTION_EFFORT
  | .negInf => DEFAULT_REDUCTION_EFFORT

/-- JavaScript `edits && Object.keys(edits).length > 0`. -/
def editsNonEmpty : Option Edits → Bool
  | some e => !e.isEmpty
  | none => false

/-- JavaScript `!edits.toFormat`, evaluated only when `edits` is truthy. -/
def editsToFormatFalsy : Option Edits → Bool
  | some e => !(jsTruthyOpt (objGet e (str "toFormat")))
  | none => true

/-- Lines 79–86 of `setup`: an SVG original with a non-empty edit set and
no `toFormat` edit forces the output format to PNG. -/
def svgForce (info0 : ImageRequestInfo) : ImageRequestInfo :=
  if info0.contentType = str "image/svg+xml" ∧
     editsNonEmpty info0.edits = true ∧ editsToFormatFalsy info0.edits = true
  then { info0 with outputFormat := some (.jsStr (str "png")) }
  else info0

/-- The guard of lines 92–96:
`contentType !== 'image/svg+xml' || edits.toFormat || outputFormat`.
When the content type is SVG and `edits` is undefined, reading
`edits.toFormat` raises a native `TypeError`. -/
def negotiateCond (info : ImageRequestInfo) : Except JsErr Bool :=
  if info.contentType ≠ str "image/svg+xml" then .ok true
  else
    match info.edits with
    | none => .error .typeError
    | some e =>
      .ok (jsTruthyOpt (objGet e (str "toFormat")) || jsTruthyOpt info.outputFormat)

/-- Lines 99–112 of `setup`: when the negotiated candidate is `webp` and
the dialect is Default, store the validated reduction effort from the
decoded record (absent field: store nothing). -/
def applyReductionEffort (sys : Sys) (event : Event) (info : ImageRequestInfo)
    (outputFormat : Option JsVal) : Except JsErr ImageRequestInfo :=
  if outputFormat = some (.jsStr (str "webp")) ∧ info.requestType = .DEFAULT then
    match decodeRequest sys event with
    | .error e => .error e
    | .ok decoded =>
      match decoded.reductionEffort with
      | some v => .ok { info with reductionEffort := some (reductionEffortValue v) }
      | none => .ok info
  else .ok info

/-- Lines 113–117 of `setup`: a truthy `toFormat` edit wins, else a truthy
negotiated candidate is stored. -/
def applyOutputFormat (info : ImageRequestInfo) (outputFormat : Option JsVal) :
    ImageRequestInfo :=
  match info.edits with
  | some e =>
    match objGet e (str "toFormat") with
    | some tf =>
      if jsTruthy tf then { info with outputFormat := some tf }
      else if jsTruthyOpt outputFormat then { info with outputFormat := outputFormat }
      else info
    | none =>
      if jsTruthyOpt outputFormat then { info with outputFormat := outputFormat }
      else info
  | none =>
    if jsTruthyOpt outputFormat then { info with outputFormat := outputFormat }
    else info

/-- Lines 78–143 of `setup`: the SVG forcing, the format negotiation with
reduction effort, and the quality-key fix-up, applied to the merged
descriptor. -/
def negotiateAndFix (sys : Sys) (event : Event) (info0 : ImageRequestInfo) :
    Except JsErr ImageRequestInfo :=
  match negotiateCond (svgForce info0) with
  | .error e => .error e
  | .ok false => qualityFix (svgForce info0)
  | .ok true =>
    match getOutputFormat sys event (svgForce info0).requestType with
    | .error e => .error e
    | .ok outputFormat =>
      match applyReductionEffort sys event (svgForce info0) outputFormat with
      | .error e => .error e
      | .ok infoA => qualityFix (applyOutputFormat infoA outputFormat)

/-- Model of `ImageRequest.setup`: signature validation, classification, key and
bucket resolution, the trial fetch with its unconditional default-image key
rewrite, edits, the real fetch with metadata merge, headers, then format
negotiation and the quality fix-up.  The `none` key arm is unreachable:
`parseImageBucket` has already raised the `TypeError` for an undefined
key. -/
def setup (sys : Sys) (event : Event) : Except JsErr ImageRequestInfo :=
  match validateRequestSignature sys event with
  | .error e => .error e
  | .ok _ =>
    match parseRequestType sys event with
    | .error e => .error e
    | .ok requestType =>
      match parseImageKey sys event requestType with
      | .error e => .error e
      | .ok keyOpt =>
        match parseImageBucket sys event requestType keyOpt with
        | .error e => .error e
        | .ok bucket =>
          match keyOpt with
          | none => .error .typeError
          | some key0 =>
            match parseImageEdits sys event requestType with
            | .error e => .error e
            | .ok edits =>
              match getOriginalImage sys bucket (trialKey sys bucket key0) with
              | .error e => .error e
              | .ok orig =>
                match parseImageHeaders sys event requestType with
                | .error e => .error e
                | .ok headers =>
                  negotiateAndFix sys event
                    { requestType := requestType
                      bucket := bucket
                      key := trialKey sys bucket key0
                      edits := edits
                      headers := headers
                      contentType := orig.contentType
                      originalImage := orig.originalImage
                      cacheControl := orig.cacheControl
                      expires := orig.expires
                      lastModified := orig.lastModified
                      outputFormat := none
                      reductionEffort := none }

/-- System for the C10 witness: auto-WebP enabled. -/
def sysC10 : Sys :=
  { sysC1 with
    env := { sysC1.env with
      AUTO_WEBP := some (str "Yes")
      REWRITE_MATCH_PATTERN := none
      REWRITE_SUBSTITUTION := none } }

/-- Event for the C10 witness: the client accepts `image/webp`. -/
def evC10 : Event :=
  { path := str "/img.svg",
    headers := { Accept := some (str "image/webp,image/png") },
    queryStringParameters := none }

/-- Descriptor entering format negotiation in the C10 witness: an SVG
original with one (grayscale) edit and no `toFormat`. -/
def infoC10 : ImageRequestInfo :=
  { requestType := .THUMBOR, bucket := some (str "bkt"), key := str "img.svg",
    edits := some [(str "grayscale", .jsBool true)], headers := none,
    contentType := str "image/svg+xml", originalImage := [],
    cacheControl := str "max-age=31536000,public",
    expires := none, lastModified := none, outputFormat := none,
    reductionEffort := none }

/-- The descriptor the negotiation produces in the C10 witness. -/
def rC10 : ImageRequestInfo :=
  { infoC10 with
    contentType := str "image/webp"
    outputFormat := some (.jsStr (str "webp")) }

/-- The `List.find?` distributes over append, preferring the left list. -/
theorem find_append_pick {α : Type} (p : α → Bool) (l₁ l₂ : List α) :
    (l₁ ++ l₂).find? p = ((l₁.find? p).orElse (fun _ => l₂.find? p)) := by
  induction l₁ with
  | nil => simp [Option.orElse]
  | cons c cs ih =>
    by_cases h : p c <;> simp [List.find?_cons, h, ih, Option.orElse]

/-- A left fold that keeps the latest element satisfying `p` equals the
first satisfying element of the reversed list, with the initial value as
fallback. -/
theorem foldl_last_pick {α : Type} (p : α → Bool) (l : List α) (init : Option α) :
    l.foldl (fun acc cur => if p cur then some cur else acc) init =
      ((l.reverse.find? p).orElse (fun _ => init)) := by
  induction l generalizing init with
  | nil => simp [Option.orElse]
  | cons c cs ih =>
    rw [List.foldl_cons, ih, List.reverse_cons, find_append_pick]
    cases hf : cs.reverse.find? p <;> by_cases hc : p c <;>
      simp [Option.orElse, List.find?_cons, hc]

/-- Every result of `checkImageBucket` is the configured fallback or an
allow-list entry. -/
theorem checkImageBucket_mem (env : Env) (l : List JStr) (t : JStr) :
    checkImageBucket env l t = env.DEFAULT_FALLBACK_IMAGE_BUCKET ∨
    ∃ e ∈ l, checkImageBucket env l t = some e := by
  unfold checkImageBucket
  rw [foldl_last_pick]
  cases hf : l.reverse.find? (fun b => jsIncludes t b) with
  | none => left; simp [Option.orElse]
  | some x =>
    right
    refine ⟨x, ?_, by simp [Option.orElse]⟩
    have := List.mem_of_find?_eq_some hf
    simpa using this

/-- C2 (amended): whenever bucket resolution succeeds, the resolved bucket
is an allow-list entry, or the configured fallback bucket, or (Default
dialect with explicit bucket only) a string matching the first allow-list
entry as an anchored regular expression — the last case need not equal any
entry. -/
theorem parseImageBucket_allowlist (sys : Sys) (event : Event)
    (rt : RequestTypes) (key : Option JStr) (b : Option JStr)
    (h : parseImageBucket sys event rt key = .ok b) :
    ∃ sourceBuckets, getAllowedSourceBuckets sys.env = .ok sourceBuckets ∧
      ((∃ e ∈ sourceBuckets, b = some e) ∨
       b = sys.env.DEFAULT_FALLBACK_IMAGE_BUCKET ∨
       (rt = .DEFAULT ∧ ∃ s, b = some s ∧
         sys.regexTest (str "^" ++ sourceBuckets.headD [] ++ str "$") s = .ok true)) := by
  unfold parseImageBucket at h
  split at h
  next e hsb => exact absurd h (by simp)
  next sb hsb =>
    refine ⟨sb, hsb, ?_⟩
    split at h
    next => exact absurd h (by simp)
    next k =>
      have fromCheck :
          checkImageBucket sys.env sb (k.takeWhile (fun c => c ≠ '/')) = b →
          (∃ e ∈ sb, b = some e) ∨
            b = sys.env.DEFAULT_FALLBACK_IMAGE_BUCKET ∨
            (rt = .DEFAULT ∧ ∃ s, b = some s ∧
              sys.regexTest (str "^" ++ sb.headD [] ++ str "$") s = .ok true) := by
        intro hcb
        rcases checkImageBucket_mem sys.env sb (k.takeWhile (fun c => c ≠ '/')) with
          hfb | ⟨e, he, heq⟩
        · right; left; rw [← hcb, hfb]
        · left; exact ⟨e, he, by rw [← hcb, heq]⟩
      cases rt with
      | THUMBOR => exact fromCheck (by simpa using h)
      | CUSTOM => exact fromCheck (by simpa using h)
      | DEFAULT =>
        dsimp only at h
        split at h
        next e hdec => exact absurd h (by simp)
        next request hdec =>
          split at h
          next bb hb =>
            by_cases hc : sb.contains bb
            · rw [if_pos hc] at h
              simp only [Except.ok.injEq] at h
              left
              exact ⟨bb, List.mem_of_elem_eq_true hc, h.symm⟩
            · rw [if_neg hc] at h
              split at h
              next e hrt => exact absurd h (by simp)
              next hrt =>
                simp only [Except.ok.injEq] at h
                right; right
                exact ⟨rfl, bb, h.symm, hrt⟩
              next hrt => exact absurd h (by simp)
          next hb => exact fromCheck (by simpa using h)

/-- Counterexample to C2 as stated: with allow-list entry `a.c`, the
explicit bucket `abc` passes the anchored-regex test `^a.c$`, so resolution
succeeds with a bucket that equals no allow-list entry and is not the
(unset) fallback. -/
theorem parseImageBucket_regex_escape_ce :
    parseImageBucket sysC2 (mkEvent "e30") .DEFAULT (some (str "x/y.jpg")) =
      .ok (some (str "abc")) ∧
    getAllowedSourceBuckets sysC2.env = .ok [str "a.c"] ∧
    ¬ (str "abc") ∈ [str "a.c"] ∧
    sysC2.env.DEFAULT_FALLBACK_IMAGE_BUCKET ≠ some (str "abc") := by decide

/-- Witness for C2 (amended), at the counterexample configuration. -/
theorem parseImageBucket_allowlist_witness :
    ∃ sourceBuckets, getAllowedSourceBuckets sysC2.env = .ok sourceBuckets ∧
      ((∃ e ∈ sourceBuckets, (some (str "abc") : Option JStr) = some e) ∨
       (some (str "abc") : Option JStr) = sysC2.env.DEFAULT_FALLBACK_IMAGE_BUCKET ∨
       (RequestTypes.DEFAULT = .DEFAULT ∧ ∃ s, (some (str "abc") : Option JStr) = some s ∧
         sysC2.regexTest (str "^" ++ sourceBuckets.headD [] ++ str "$") s = .ok true)) :=
  parseImageBucket_allowlist sysC2 (mkEvent "e30") .DEFAULT
    (some (str "x/y.jpg")) (some (str "abc")) (by decide)

/-- Counterexample to C6 as stated: with allow-list `["ab", "abc"]` and key
alias `a`, both entries contain the alias; the code resolves to `abc` (the
last match) while the claimed first-match rule picks `ab`. -/
theorem checkImageBucket_first_match_ce :
    parseImageBucket sysC6 (mkEvent "e30") .THUMBOR (some (str "a/x.jpg")) =
      .ok (some (str "abc")) ∧
    getAllowedSourceBuckets sysC6.env = .ok [str "ab", str "abc"] ∧
    specFirstMatchBucket [str "ab", str "abc"] (str "a")
      sysC6.env.DEFAULT_FALLBACK_IMAGE_BUCKET = some (str "ab") ∧
    (some (str "abc") : Option JStr) ≠ some (str "ab") := by decide

/-- C6 (amended): for the Thumbor and Custom dialects, and for the Default
dialect without an explicit bucket in the decoded record, the resolver takes
the first path segment of the key as an alias and returns the *last*
allow-list entry containing that alias as a substring, else the configured
fallback bucket (possibly unset). -/
theorem checkImageBucket_last_match :
    (∀ env l t, checkImageBucket env l t =
      lastMatchBucket l t env.DEFAULT_FALLBACK_IMAGE_BUCKET) ∧
    (∀ sys event k sb, getAllowedSourceBuckets sys.env = .ok sb →
      (parseImageBucket sys event .THUMBOR (some k) =
        .ok (checkImageBucket sys.env sb (k.takeWhile (fun c => c ≠ '/'))) ∧
       parseImageBucket sys event .CUSTOM (some k) =
        .ok (checkImageBucket sys.env sb (k.takeWhile (fun c => c ≠ '/'))) ∧
       (∀ r, decodeRequest sys event = .ok r → r.bucket = none →
         parseImageBucket sys event .DEFAULT (some k) =
          .ok (checkImageBucket sys.env sb (k.takeWhile (fun c => c ≠ '/')))))) := by
  constructor
  · intro env l t
    unfold checkImageBucket lastMatchBucket
    exact foldl_last_pick _ l _
  · intro sys event k sb hsb
    refine ⟨?_, ?_, ?_⟩
    · unfold parseImageBucket; rw [hsb]
    · unfold parseImageBucket; rw [hsb]
    · intro r hdec hb
      unfold parseImageBucket
      rw [hsb]
      dsimp only
      rw [hdec]
      dsimp only
      rw [hb]

/-- Witness for C6 (amended): the resolver picks the last matching entry. -/
theorem checkImageBucket_last_match_witness :
    parseImageBucket sysC6 (mkEvent "e30") .THUMBOR (some (str "a/x.jpg")) =
      .ok (some (str "abc")) := by
  have h := (checkImageBucket_last_match.2 sysC6 (mkEvent "e30") (str "a/x.jpg")
    [str "ab", str "abc"] (by decide)).1
  rw [h]
  decide

/-- C1: dialect classification follows the fixed priority order — Default
when the path matches the strict base64 grammar and the trial base64 decode
plus JSON parse succeeds; otherwise Custom when both rewrite configuration
values are defined and non-empty, regardless of path shape; otherwise
Thumbor when the Thumbor grammar matches; otherwise a bad-request error.
The Default case carries no assumption on the rewrite configuration, so a
base64-grammar path whose decode parses classifies Default even when the
rewrite configuration is set. -/
theorem parseRequestType_priority (sys : Sys) (event : Event) :
    ((matchDefault event.path && exOk (decodeRequest sys event)) = true →
      parseRequestType sys event = .ok .DEFAULT) ∧
    ((matchDefault event.path && exOk (decodeRequest sys event)) = false →
      definedEnvironmentVariables sys.env = true →
      parseRequestType sys event = .ok .CUSTOM) ∧
    ((matchDefault event.path && exOk (decodeRequest sys event)) = false →
      definedEnvironmentVariables sys.env = false →
      matchThumbor event.path = true →
      parseRequestType sys event = .ok .THUMBOR) ∧
    ((matchDefault event.path && exOk (decodeRequest sys event)) = false →
      definedEnvironmentVariables sys.env = false →
      matchThumbor event.path = false →
      parseRequestType sys event = .error requestTypeError) := by
  refine ⟨fun h1 => ?_, fun h1 h2 => ?_, fun h1 h2 h3 => ?_, fun h1 h2 h3 => ?_⟩
  · simp [parseRequestType, h1]
  · simp [parseRequestType, h1, h2]
  · simp [parseRequestType, h1, h2, h3]
  · simp [parseRequestType, h1, h2, h3]

/-- Witness for C1: with the rewrite configuration set, a base64-grammar
path whose decode parses still classifies as Default. -/
theorem parseRequestType_priority_witness :
    parseRequestType sysC1
      { path := str "/abcd", headers := { Accept := none },
        queryStringParameters := none } = .ok .DEFAULT :=
  (parseRequestType_priority sysC1
      { path := str "/abcd", headers := { Accept := none },
        queryStringParameters := none }).1 (by decide)

/-- Counterexample to C3 as stated: the trial fetch fails with
`AccessDenied` — not a not-found — yet the key is still rewritten to the
per-directory `default.jpg`, so the rewrite is not conditioned on
not-found. -/
theorem fetch_retry_not_only_notfound_ce :
    sysC3.s3GetObject (some (str "bkt")) (str "images/photo.jpg") =
      .error ⟨str "AccessDenied", str "Access Denied"⟩ ∧
    (⟨str "AccessDenied", str "Access Denied"⟩ : S3Error).code ≠ str "NoSuchKey" ∧
    trialKey sysC3 (some (str "bkt")) (str "images/photo.jpg") =
      str "images/default.jpg" := by decide

/-- C3 (amended): the key is rewritten to the same directory prefix followed
by `default.jpg` (bucket unchanged) exactly when the initial trial fetch
fails with *any* error, and the fetch is then retried exactly once; on the
retried fetch a `NoSuchKey` failure surfaces as a 404 NotFound with the
template message, and any other failure surfaces as a 500
InternalServerError carrying the underlying code and message. -/
theorem fetch_retry_spec (sys : Sys) (bucket : Option JStr) (key : JStr) :
    (∀ obj, sys.s3GetObject bucket key = .ok obj →
      trialKey sys bucket key = key) ∧
    (∀ e, sys.s3GetObject bucket key = .error e →
      trialKey sys bucket key = retryKey key) ∧
    (∀ e, sys.s3GetObject bucket key = .error e → e.code = str "NoSuchKey" →
      getOriginalImage sys bucket key =
        .error (.handler 404 e.code
          (str "The image " ++ key ++
           str " does not exist or the request may not be base64 encoded properly."))) ∧
    (∀ e, sys.s3GetObject bucket key = .error e → e.code ≠ str "NoSuchKey" →
      getOriginalImage sys bucket key = .error (.handler 500 e.code e.message)) := by
  refine ⟨fun obj h => ?_, fun e h => ?_, fun e h hc => ?_, fun e h hc => ?_⟩
  · unfold trialKey; rw [h]
  · unfold trialKey; rw [h]
  · unfold getOriginalImage; rw [h]; dsimp only; rw [if_pos hc]
  · unfold getOriginalImage; rw [h]; dsimp only; rw [if_neg hc]

/-- Witness for C3 (amended): a failed initial fetch rewrites the key, and
the non-not-found error on the retried fetch surfaces as a 500 with the
underlying code and message. -/
theorem fetch_retry_spec_witness :
    trialKey sysC3 (some (str "bkt")) (str "a/b.jpg") = retryKey (str "a/b.jpg") ∧
    getOriginalImage sysC3 (some (str "bkt")) (retryKey (str "a/b.jpg")) =
      .error (.handler 500 (str "AccessDenied") (str "Access Denied")) :=
  ⟨(fetch_retry_spec sysC3 (some (str "bkt")) (str "a/b.jpg")).2.1
      ⟨str "AccessDenied", str "Access Denied"⟩ (by decide),
   (fetch_retry_spec sysC3 (some (str "bkt")) (retryKey (str "a/b.jpg"))).2.2.2
      ⟨str "AccessDenied", str "Access Denied"⟩ (by decide) (by decide)⟩

/-- Each byte renders as exactly two hex characters. -/
theorem flatMap_hexByte_len (l : List Nat) :
    (l.flatMap hexByteL).length = 2 * l.length := by
  induction l with
  | nil => simp
  | cons b bs ih => simp [hexByteL, ih]; ring

/-- The hex signature has twice as many characters as the bytes sampled. -/
theorem hexSignature_len (buf : List Nat) :
    (hexSignature buf).length = 2 * (buf.take 4).length := by
  simp only [hexSignature, List.length_map, flatMap_hexByte_len]

/-- C7: the content-type sniffer is a pure function of the first four
payload bytes; each of the eight listed signatures yields the corresponding
MIME type; every other signature — including every buffer shorter than four
bytes — fails with the internal-server `RequestTypeError`, never defaulting
silently. -/
theorem inferImageType_spec :
    (∀ buf : List Nat, inferImageType buf = inferImageType (buf.take 4)) ∧
    (∀ rest : List Nat,
      inferImageType ([0x89, 0x50, 0x4E, 0x47] ++ rest) = .ok (str "image/png") ∧
      inferImageType ([0xFF, 0xD8, 0xFF, 0xDB] ++ rest) = .ok (str "image/jpeg") ∧
      inferImageType ([0xFF, 0xD8, 0xFF, 0xE0] ++ rest) = .ok (str "image/jpeg") ∧
      inferImageType ([0xFF, 0xD8, 0xFF, 0xEE] ++ rest) = .ok (str "image/jpeg") ∧
      inferImageType ([0xFF, 0xD8, 0xFF, 0xE1] ++ rest) = .ok (str "image/jpeg") ∧
      inferImageType ([0x52, 0x49, 0x46, 0x46] ++ rest) = .ok (str "image/webp") ∧
      inferImageType ([0x49, 0x49, 0x2A, 0x00] ++ rest) = .ok (str "image/tiff") ∧
      inferImageType ([0x4D, 0x4D, 0x00, 0x2A] ++ rest) = .ok (str "image/tiff")) ∧
    (∀ buf : List Nat,
      ¬ hexSignature buf ∈
        [str "89504E47", str "FFD8FFDB", str "FFD8FFE0", str "FFD8FFEE",
         str "FFD8FFE1", str "52494646", str "49492A00", str "4D4D002A"] →
      inferImageType buf = .error inferTypeError) ∧
    (∀ buf : List Nat, buf.length < 4 → inferImageType buf = .error inferTypeError) := by
  have htake : ∀ buf : List Nat, inferImageType buf = inferImageType (buf.take 4) := by
    intro buf
    simp only [inferImageType, hexSignature, List.take_take]
    norm_num
  have hmem : ∀ buf : List Nat,
      ¬ hexSignature buf ∈
        [str "89504E47", str "FFD8FFDB", str "FFD8FFE0", str "FFD8FFEE",
         str "FFD8FFE1", str "52494646", str "49492A00", str "4D4D002A"] →
      inferImageType buf = .error inferTypeError := by
    intro buf hm
    simp only [List.mem_cons, List.not_mem_nil, or_false, not_or] at hm
    obtain ⟨h1, h2, h3, h4, h5, h6, h7, h8⟩ := hm
    simp [inferImageType, h1, h2, h3, h4, h5, h6, h7, h8]
  have hconc : ∀ (a b c d : Nat) (rest : List Nat),
      inferImageType ([a, b, c, d] ++ rest) = inferImageType [a, b, c, d] :=
    fun a b c d rest => htake ([a, b, c, d] ++ rest)
  refine ⟨htake, fun rest => ?_, hmem, fun buf hlen => ?_⟩
  · exact ⟨(hconc _ _ _ _ rest).trans (by decide), (hconc _ _ _ _ rest).trans (by decide),
      (hconc _ _ _ _ rest).trans (by decide), (hconc _ _ _ _ rest).trans (by decide),
      (hconc _ _ _ _ rest).trans (by decide), (hconc _ _ _ _ rest).trans (by decide),
      (hconc _ _ _ _ rest).trans (by decide), (hconc _ _ _ _ rest).trans (by decide)⟩
  · apply hmem
    intro hin
    have h8 : (hexSignature buf).length = 8 := by
      rcases List.mem_cons.mp hin with h | hin <;>
        [skip; rcases List.mem_cons.mp hin with h | hin] <;>
        [skip; skip; rcases List.mem_cons.mp hin with h | hin] <;>
        [skip; skip; skip; rcases List.mem_cons.mp hin with h | hin] <;>
        [skip; skip; skip; skip; rcases List.mem_cons.mp hin with h | hin] <;>
        [skip; skip; skip; skip; skip; rcases List.mem_cons.mp hin with h | hin] <;>
        [skip; skip; skip; skip; skip; skip; rcases List.mem_cons.mp hin with h | hin] <;>
        [skip; skip; skip; skip; skip; skip; skip;
          rcases List.mem_cons.mp hin with h | hin] <;>
        first
          | (rw [h]; decide)
          | exact absurd hin (List.not_mem_nil _)
    have hlen2 := hexSignature_len buf
    rw [h8] at hlen2
    rw [List.length_take] at hlen2
    omega

/-- Witness for C7: a three-byte buffer (shorter than a full signature)
fails with the internal-server `RequestTypeError`. -/
theorem inferImageType_spec_witness :
    inferImageType [0x89, 0x50, 0x4E] = .error inferTypeError :=
  inferImageType_spec.2.2.2 [0x89, 0x50, 0x4E] (by decide)

/-- C4: signature validation is a no-op when signing is not enabled; with
signing enabled, a missing `signature` query parameter fails with the
bad-request `AuthorizationQueryParametersError`; a signature unequal to the
hex HMAC-SHA256 of the raw request path under the configured secret key
fails with the forbidden `SignatureDoesNotMatch`, re-raised verbatim; and
any failure of secret retrieval, parsing or key extraction fails with the
internal `SignatureValidationFailure`. -/
theorem validateRequestSignature_spec (sys : Sys) (event : Event) :
    (sys.env.ENABLE_SIGNATURE ≠ some (str "Yes") →
      validateRequestSignature sys event = .ok ()) ∧
    (sys.env.ENABLE_SIGNATURE = some (str "Yes") →
      (event.queryStringParameters = none ∨
       (∃ q, event.queryStringParameters = some q ∧ q.signature = none)) →
      validateRequestSignature sys event = .error authParamsError) ∧
    (∀ q sg secretString secret key,
      sys.env.ENABLE_SIGNATURE = some (str "Yes") →
      event.queryStringParameters = some q → q.signature = some sg → sg ≠ [] →
      sys.getSecret sys.env.SECRETS_MANAGER = .ok secretString →
      sys.jsonSecret secretString = some secret →
      secret (sys.env.SECRET_KEY.getD (str "undefined")) = some key →
      sg ≠ sys.hmacSha256Hex key event.path →
      validateRequestSignature sys event = .error signatureDoesNotMatchError) ∧
    (∀ q sg,
      sys.env.ENABLE_SIGNATURE = some (str "Yes") →
      event.queryStringParameters = some q → q.signature = some sg → sg ≠ [] →
      ((∃ e, sys.getSecret sys.env.SECRETS_MANAGER = .error e ∧
          e.codeOf ≠ some (str "SignatureDoesNotMatch")) ∨
       (∃ s1, sys.getSecret sys.env.SECRETS_MANAGER = .ok s1 ∧
          sys.jsonSecret s1 = none) ∨
       (∃ s1 secret, sys.getSecret sys.env.SECRETS_MANAGER = .ok s1 ∧
          sys.jsonSecret s1 = some secret ∧
          secret (sys.env.SECRET_KEY.getD (str "undefined")) = none)) →
      validateRequestSignature sys event = .error signatureValidationFailureError) := by
  refine ⟨fun hoff => ?_, fun hon hq => ?_, ?_, ?_⟩
  · unfold validateRequestSignature
    rw [if_neg hoff]
  · unfold validateRequestSignature
    rw [if_pos hon]
    rcases hq with hq | ⟨q, hq, hs⟩
    · rw [hq]
    · rw [hq]; dsimp only; rw [hs]
  · intro q sg secretString secret key hon hq hs hne hsec hparse hkey hneq
    unfold validateRequestSignature
    rw [if_pos hon, hq]
    dsimp only
    rw [hs]
    dsimp only
    rw [if_neg (by simpa using hne)]
    unfold signatureTryBody
    rw [hsec]
    dsimp only
    rw [hparse]
    dsimp only
    rw [hkey]
    dsimp only
    rw [if_pos hneq]
    decide
  · intro q sg hon hq hs hne hfail
    unfold validateRequestSignature
    rw [if_pos hon, hq]
    dsimp only
    rw [hs]
    dsimp only
    rw [if_neg (by simpa using hne)]
    unfold signatureTryBody
    rcases hfail with ⟨e, he, hcode⟩ | ⟨s1, hsec, hparse⟩ | ⟨s1, secret, hsec, hparse, hkey⟩
    · rw [he]
      dsimp only
      rw [if_neg hcode]
    · rw [hsec]
      dsimp only
      rw [hparse]
      dsimp only
      decide
    · rw [hsec]
      dsimp only
      rw [hparse]
      dsimp only
      rw [hkey]
      dsimp only
      decide

/-- Witness for C4: with signing enabled, a wrong signature is rejected
with the forbidden `SignatureDoesNotMatch`. -/
theorem validateRequestSignature_spec_witness :
    validateRequestSignature sysC4
      { path := str "/p", headers := { Accept := none },
        queryStringParameters := some { signature := some (str "bad") } } =
      .error signatureDoesNotMatchError :=
  (validateRequestSignature_spec sysC4
      { path := str "/p", headers := { Accept := none },
        queryStringParameters := some { signature := some (str "bad") } }).2.2.1
    { signature := some (str "bad") } (str "bad") (str "blob")
    (fun f => if f = str "k" then some (str "hunter2") else none) (str "hunter2")
    rfl rfl rfl (by decide) rfl rfl (by decide) (by decide)

/-- The `jsSplitChar` never returns the empty list. -/
theorem jsSplitChar_ne_nil (sep : Char) (l : JStr) : jsSplitChar sep l ≠ [] := by
  induction l with
  | nil => simp [jsSplitChar]
  | cons c cs ih =>
    unfold jsSplitChar
    cases h : jsSplitChar sep cs with
    | nil => simp
    | cons h1 t => by_cases hc : c = sep <;> simp [hc]

/-- Splitting a separator-free string yields that string alone. -/
theorem jsSplitChar_no_sep (sep : Char) (l : JStr) (h : ¬ sep ∈ l) :
    jsSplitChar sep l = [l] := by
  induction l with
  | nil => rfl
  | cons c cs ih =>
    have hcs : ¬ sep ∈ cs := fun hm => h (List.mem_cons_of_mem _ hm)
    have hc : c ≠ sep := fun he => h (he ▸ List.mem_cons_self _ _)
    unfold jsSplitChar
    rw [ih hcs]
    simp [hc]

/-- Splitting a string that contains the separator yields at least two
parts. -/
theorem jsSplitChar_mem_len (sep : Char) (l : JStr) (h : sep ∈ l) :
    2 ≤ (jsSplitChar sep l).length := by
  induction l with
  | nil => cases h
  | cons c cs ih =>
    unfold jsSplitChar
    cases hs : jsSplitChar sep cs with
    | nil => exact absurd hs (jsSplitChar_ne_nil _ _)
    | cons h1 t =>
      by_cases hc : c = sep
      · simp [hc]
      · have hmem : sep ∈ cs := by
          rcases List.mem_cons.mp h with h' | h'
          · exact absurd h'.symm hc
          · exact h'
        have := ih hmem
        rw [hs] at this
        simp only [List.length_cons] at this ⊢
        rw [if_neg hc]
        simp only [List.length_cons]
        omega

/-- The last part of splitting `l ++ sep :: flags` on `sep` is `flags`
whenever `flags` is separator-free: this is the value `pop()` extracts as
the flag suffix. -/
theorem jsSplitChar_last_flags (sep : Char) (flags : JStr) (hf : ¬ sep ∈ flags)
    (l : JStr) : (jsSplitChar sep (l ++ sep :: flags)).getLast? = some flags := by
  induction l with
  | nil =>
    show (jsSplitChar sep (sep :: flags)).getLast? = some flags
    unfold jsSplitChar
    rw [jsSplitChar_no_sep sep flags hf]
    simp
  | cons c cs ih =>
    show (jsSplitChar sep (c :: (cs ++ sep :: flags))).getLast? = some flags
    unfold jsSplitChar
    cases h : jsSplitChar sep (cs ++ sep :: flags) with
    | nil => exact absurd h (jsSplitChar_ne_nil _ _)
    | cons h1 t =>
      rw [h] at ih
      dsimp only
      by_cases hc : c = sep
      · rw [if_pos hc]
        rw [List.getLast?_cons_cons]
        exact ih
      · rw [if_neg hc]
        have hlen : 2 ≤ (jsSplitChar sep (cs ++ sep :: flags)).length :=
          jsSplitChar_mem_len sep _ (by simp)
        rw [h] at hlen
        cases t with
        | nil => simp at hlen
        | cons t1 t2 =>
          rw [List.getLast?_cons_cons]
          rw [List.getLast?_cons_cons] at ih
          exact ih

/-- The slice `pat.slice(1, pat.length - 1 - flags.length)` of a delimited
pattern `/p/flags` recovers `p`. -/
theorem jsSliceList_delimited (p flags : JStr) :
    jsSliceList (str "/" ++ p ++ str "/" ++ flags) 1
      (((str "/" ++ p ++ str "/" ++ flags).length : Int) - 1 - (flags.length : Int)) = p := by
  have hlen : (str "/" ++ p ++ str "/" ++ flags).length = p.length + flags.length + 2 := by
    simp [str]
    omega
  unfold jsSliceList
  rw [hlen]
  have h1 : jsSliceIdx 1 (p.length + flags.length + 2) = 1 := by
    simp [jsSliceIdx]
  have h2 : jsSliceIdx (((p.length + flags.length + 2 : Nat) : Int) - 1 - (flags.length : Int))
      (p.length + flags.length + 2) = p.length + 1 := by
    unfold jsSliceIdx
    rw [if_neg (by push_cast; omega)]
    have hcast : ((p.length + flags.length + 2 : Nat) : Int) - 1 - (flags.length : Int) =
        ((p.length + 1 : Nat) : Int) := by push_cast; ring
    rw [hcast, Int.toNat_natCast]
    omega
  rw [h1, h2]
  have hdrop : (str "/" ++ p ++ str "/" ++ flags).drop 1 = p ++ ('/' :: flags) := by
    simp [str]
  rw [hdrop]
  have hone : p.length + 1 - 1 = p.length := rfl
  rw [hone]
  exact List.take_left p ('/' :: flags)

/-- Counterexample to C5 as stated: the defined non-delimited pattern `ab`
is not applied as a literal substring replace — the code still parses it as
a delimited regex (flags `ab`, pattern the empty slice) and the rewrite
errors out instead of producing the claimed literal replacement. -/
theorem customRewrite_literal_ce :
    sysC5.env.REWRITE_MATCH_PATTERN = some (str "ab") ∧
    customRewrite sysC5 (str "xaby") = .error .regexSyntax ∧
    specLiteralRewrite (str "ab") (str "Z") (str "xaby") = .ok (str "xZy") ∧
    customRewrite sysC5 (str "xaby") ≠
      specLiteralRewrite (str "ab") (str "Z") (str "xaby") := by decide

/-- C5 (amended): whenever the configured match pattern is a defined string
— which every environment value is — the rewrite takes the regex branch:
the text after the last `/` is popped as the flag string, the slice between
the first character and the flag suffix becomes the pattern, and a single
regular-expression substitution is applied; in particular a delimited
`/pattern/flags` literal is parsed into exactly `pattern` and `flags`. The
literal-substring replace is reached only when the match pattern is
undefined, in which case JavaScript coerces it to the string `"undefined"`. -/
theorem customRewrite_spec :
    (∀ sys path pat, sys.env.REWRITE_MATCH_PATTERN = some pat →
      customRewrite sys path =
        sys.regexReplace
          (jsSliceList pat 1 ((pat.length : Int) - 1 -
            (((jsSplitChar '/' pat).getLastD []).length : Int)))
          ((jsSplitChar '/' pat).getLastD [])
          (sys.env.REWRITE_SUBSTITUTION.getD (str "undefined")) path) ∧
    (∀ sys path p flags, ¬ '/' ∈ flags →
      sys.env.REWRITE_MATCH_PATTERN = some (str "/" ++ p ++ str "/" ++ flags) →
      customRewrite sys path =
        sys.regexReplace p flags
          (sys.env.REWRITE_SUBSTITUTION.getD (str "undefined")) path) ∧
    (∀ sys path, sys.env.REWRITE_MATCH_PATTERN = none →
      customRewrite sys path =
        .ok (jsReplaceLiteral (str "undefined")
          (sys.env.REWRITE_SUBSTITUTION.getD (str "undefined")) path)) := by
  have hreg : ∀ (sys : Sys) (path pat : JStr),
      sys.env.REWRITE_MATCH_PATTERN = some pat →
      customRewrite sys path =
        sys.regexReplace
          (jsSliceList pat 1 ((pat.length : Int) - 1 -
            (((jsSplitChar '/' pat).getLastD []).length : Int)))
          ((jsSplitChar '/' pat).getLastD [])
          (sys.env.REWRITE_SUBSTITUTION.getD (str "undefined")) path := by
    intro sys path pat hp
    unfold customRewrite
    rw [hp]
  refine ⟨hreg, fun sys path p flags hf hp => ?_, fun sys path hp => ?_⟩
  · have h := hreg sys path _ hp
    rw [h]
    have happ : str "/" ++ p ++ str "/" ++ flags = (str "/" ++ p) ++ '/' :: flags := by
      simp [str]
    have hflags : ((jsSplitChar '/' (str "/" ++ p ++ str "/" ++ flags)).getLastD []) = flags := by
      rw [happ, List.getLastD_eq_getLast?, jsSplitChar_last_flags '/' flags hf (str "/" ++ p)]
      rfl
    rw [hflags, jsSliceList_delimited]
  · unfold customRewrite
    rw [hp]

/-- Witness for C5 (amended): the delimited pattern `/a+/gi` reaches the
regex substitution with pattern `a+` and flags `gi`. -/
theorem customRewrite_spec_witness :
    customRewrite sysC5w (str "xa") = .ok (str "a+giZxa") := by
  have h := customRewrite_spec.2.1 sysC5w (str "xa") (str "a+") (str "gi")
    (by decide) (by decide)
  rw [h]
  decide

/-- If no entry has key `k`, the key-`k` read fails. -/
theorem objGet_of_not_hasKey (e : Edits) (k : JStr) (h : objHasKey e k = false) :
    objGet e k = none := by
  induction e with
  | nil => rfl
  | cons p ps ih =>
    unfold objHasKey at h
    unfold objGet
    by_cases hp : p.1 = k
    · rw [if_pos hp] at h; cases h
    · rw [if_neg hp] at h
      rw [if_neg hp]
      exact ih h

/-- Reading an appended fresh key. -/
theorem objGet_append_self (e : Edits) (k : JStr) (v : JsVal)
    (h : objHasKey e k = false) : objGet (e ++ [(k, v)]) k = some v := by
  induction e with
  | nil => simp [objGet]
  | cons p ps ih =>
    unfold objHasKey at h
    by_cases hp : p.1 = k
    · rw [if_pos hp] at h; cases h
    · rw [if_neg hp] at h
      show objGet ((p :: (ps ++ [(k, v)]))) k = some v
      unfold objGet
      rw [if_neg hp]
      exact ih h

/-- Reading another key through an append. -/
theorem objGet_append_other (e : Edits) (k k2 : JStr) (v : JsVal)
    (hne : k2 ≠ k) : objGet (e ++ [(k, v)]) k2 = objGet e k2 := by
  induction e with
  | nil =>
    show objGet [(k, v)] k2 = objGet [] k2
    simp only [objGet]
    rw [if_neg (fun h => hne h.symm)]
  | cons p ps ih =>
    show objGet ((p :: (ps ++ [(k, v)]))) k2 = objGet (p :: ps) k2
    simp only [objGet]
    by_cases hp : p.1 = k2
    · rw [if_pos hp, if_pos hp]
    · rw [if_neg hp, if_neg hp]
      exact ih

/-- Reading the overwritten key after an in-place overwrite. -/
theorem objGet_setMap_self (e : Edits) (k : JStr) (v : JsVal)
    (h : objHasKey e k = true) : objGet (objSetMap k v e) k = some v := by
  induction e with
  | nil => cases h
  | cons p ps ih =>
    simp only [objHasKey] at h
    simp only [objSetMap]
    by_cases hp : p.1 = k
    · rw [if_pos hp]
      simp only [objGet]
      simp
    · rw [if_neg hp] at h
      rw [if_neg hp]
      simp only [objGet]
      rw [if_neg hp]
      exact ih h

/-- Reading another key after an in-place overwrite of `k`. -/
theorem objGet_setMap_other (e : Edits) (k k2 : JStr) (v : JsVal)
    (hne : k2 ≠ k) : objGet (objSetMap k v e) k2 = objGet e k2 := by
  induction e with
  | nil => rfl
  | cons p ps ih =>
    simp only [objSetMap]
    by_cases hp : p.1 = k
    · rw [if_pos hp]
      simp only [objGet]
      rw [if_neg (fun h => hne h.symm), if_neg (fun h2 : p.1 = k2 => hne (h2 ▸ hp))]
      exact ih
    · rw [if_neg hp]
      simp only [objGet]
      by_cases h2 : p.1 = k2
      · rw [if_pos h2, if_pos h2]
      · rw [if_neg h2, if_neg h2]
        exact ih

/-- Reading the assigned key. -/
theorem objGet_objSet_self (e : Edits) (k : JStr) (v : JsVal) :
    objGet (objSet e k v) k = some v := by
  unfold objSet
  by_cases h : objHasKey e k
  · rw [if_pos h]
    exact objGet_setMap_self e k v h
  · rw [if_neg h]
    exact objGet_append_self e k v (by simpa using h)

/-- Reading another key after an assignment. -/
theorem objGet_objSet_other (e : Edits) (k k2 : JStr) (v : JsVal)
    (hne : k2 ≠ k) : objGet (objSet e k v) k2 = objGet e k2 := by
  unfold objSet
  by_cases h : objHasKey e k
  · rw [if_pos h]
    exact objGet_setMap_other e k k2 v hne
  · rw [if_neg h]
    exact objGet_append_other e k k2 v hne

/-- After deleting key `k`, reading it fails. -/
theorem objGet_objDelete_self (e : Edits) (k : JStr) :
    objGet (objDelete e k) k = none := by
  induction e with
  | nil => rfl
  | cons p ps ih =>
    simp only [objDelete]
    by_cases hp : p.1 = k
    · rw [if_pos hp]
      exact ih
    · rw [if_neg hp]
      simp only [objGet]
      rw [if_neg hp]
      exact ih

/-- Deleting key `k` leaves reads of any other key unchanged. -/
theorem objGet_objDelete_other (e : Edits) (k k2 : JStr) (hne : k2 ≠ k) :
    objGet (objDelete e k) k2 = objGet e k2 := by
  induction e with
  | nil => rfl
  | cons p ps ih =>
    simp only [objDelete]
    by_cases hp : p.1 = k
    · rw [if_pos hp]
      simp only [objGet]
      rw [if_neg (fun h2 : p.1 = k2 => hne (h2 ▸ hp))]
      exact ih
    · rw [if_neg hp]
      simp only [objGet]
      by_cases h2 : p.1 = k2
      · rw [if_pos h2, if_pos h2]
      · rw [if_neg h2, if_neg h2]
        exact ih

/-- The pointwise effect of the quality-key rename
`edits[out] = edits[qk]; delete edits[qk]`: the output key reads the old
quality value, the quality key is gone, everything else is untouched. -/
theorem objGet_rename (e : Edits) (s qk : JStr) (v : JsVal) (hne : qk ≠ s) :
    objGet (objDelete (objSet e s v) qk) s = some v ∧
    objGet (objDelete (objSet e s v) qk) qk = none ∧
    (∀ k, k ≠ qk → k ≠ s → objGet (objDelete (objSet e s v) qk) k = objGet e k) := by
  refine ⟨?_, objGet_objDelete_self _ _, fun k h1 h2 => ?_⟩
  · rw [objGet_objDelete_other _ _ _ (fun h => hne h.symm)]
    exact objGet_objSet_self e s v
  · rw [objGet_objDelete_other _ _ _ h1]
    exact objGet_objSet_other e s k v h2

/-- C8: the quality-key rename applies only for the Thumbor and Custom
dialects with a recognized output format; at most the first recognized edit
key is renamed, and only when it differs from the output format: the
output-format key receives its value, the renamed key disappears, and every
other entry is unchanged; when the first recognized key equals the output
format, or none exists, the edits are untouched. -/
theorem qualityFix_spec :
    (∀ info r, qualityFix info = .ok r →
      r.edits = info.edits ∨
      ((info.requestType = .CUSTOM ∨ info.requestType = .THUMBOR) ∧
       ∃ s e qk, info.outputFormat = some (.jsStr s) ∧ s ∈ acceptedFormats ∧
         info.edits = some e ∧
         ((e.map Prod.fst).filter
           (fun key => decide (key ∈ acceptedFormats))).head? = some qk ∧
         qk ≠ s ∧
         r.edits = some (objDelete
           (objSet e s ((objGet e qk).getD .jsNull)) qk))) ∧
    (∀ e s qk v, qk ≠ s →
      objGet (objDelete (objSet e s v) qk) s = some v ∧
      objGet (objDelete (objSet e s v) qk) qk = none ∧
      (∀ k, k ≠ qk → k ≠ s →
        objGet (objDelete (objSet e s v) qk) k = objGet e k)) ∧
    (∀ info r s e qk, qualityFix info = .ok r →
      info.outputFormat = some (.jsStr s) →
      info.edits = some e →
      ((e.map Prod.fst).filter
        (fun key => decide (key ∈ acceptedFormats))).head? = some qk →
      qk = s → r.edits = info.edits) := by
  have main : ∀ info r, qualityFix info = .ok r →
      r.edits = info.edits ∨
      ((info.requestType = .CUSTOM ∨ info.requestType = .THUMBOR) ∧
       ∃ s e qk, info.outputFormat = some (.jsStr s) ∧ s ∈ acceptedFormats ∧
         info.edits = some e ∧
         ((e.map Prod.fst).filter
           (fun key => decide (key ∈ acceptedFormats))).head? = some qk ∧
         qk ≠ s ∧
         r.edits = some (objDelete
           (objSet e s ((objGet e qk).getD .jsNull)) qk)) := by
    intro info r h
    unfold qualityFix at h
    cases hof : info.outputFormat with
    | none =>
      rw [hof] at h
      dsimp only at h
      simp only [Except.ok.injEq] at h
      left; rw [← h]
    | some ofv =>
      rw [hof] at h
      dsimp only at h
      by_cases htr : jsTruthy ofv
      · rw [if_pos htr] at h
        cases ofv with
        | jsNum q =>
          dsimp only at h
          simp only [Except.ok.injEq] at h
          left; rw [← h]
        | jsBool b =>
          dsimp only at h
          simp only [Except.ok.injEq] at h
          left; rw [← h]
        | jsNull =>
          dsimp only at h
          simp only [Except.ok.injEq] at h
          left; rw [← h]
        | jsObj p =>
          dsimp only at h
          simp only [Except.ok.injEq] at h
          left; rw [← h]
        | jsStr s =>
          dsimp only at h
          by_cases hcond : (info.requestType = .CUSTOM ∨ info.requestType = .THUMBOR) ∧
              s ∈ acceptedFormats
          · rw [if_pos hcond] at h
            cases hedits : info.edits with
            | none =>
              rw [hedits] at h
              dsimp only at h
              exact absurd h (by simp)
            | some e =>
              rw [hedits] at h
              dsimp only at h
              cases hqk : ((e.map Prod.fst).filter
                  (fun key => decide (key ∈ acceptedFormats))).head? with
              | none =>
                rw [hqk] at h
                dsimp only at h
                simp only [Except.ok.injEq] at h
                left; rw [← h]
              | some qk =>
                rw [hqk] at h
                dsimp only at h
                by_cases hne : qk ≠ s
                · rw [if_pos hne] at h
                  simp only [Except.ok.injEq] at h
                  right
                  refine ⟨hcond.1, s, e, qk, rfl, hcond.2, rfl, hqk, hne, ?_⟩
                  rw [← h]
                · rw [if_neg hne] at h
                  simp only [Except.ok.injEq] at h
                  left; rw [← h]
          · rw [if_neg hcond] at h
            simp only [Except.ok.injEq] at h
            left; rw [← h]
      · rw [if_neg htr] at h
        simp only [Except.ok.injEq] at h
        left; rw [← h]
  refine ⟨main, fun e s qk v hne => objGet_rename e s qk v hne, ?_⟩
  intro info r s e qk h hof hedits hqk hqs
  unfold qualityFix at h
  rw [hof] at h
  dsimp only at h
  by_cases ht : jsTruthy (.jsStr s)
  · rw [if_pos ht] at h
    by_cases hcond : (info.requestType = .CUSTOM ∨ info.requestType = .THUMBOR) ∧
        s ∈ acceptedFormats
    · rw [if_pos hcond] at h
      rw [hedits] at h
      dsimp only at h
      rw [hqk] at h
      dsimp only at h
      rw [if_neg (fun hne => hne hqs)] at h
      simp only [Except.ok.injEq] at h
      rw [← h]
      exact hedits.symm
    · rw [if_neg hcond] at h
      simp only [Except.ok.injEq] at h
      rw [← h]
  · rw [if_neg ht] at h
    simp only [Except.ok.injEq] at h
    rw [← h]

/-- Every successful `qualityFix` result is the input with at most the
content type and the edits replaced. -/
theorem qualityFix_shape (info r : ImageRequestInfo) (h : qualityFix info = .ok r) :
    ∃ ct ed, r = { info with contentType := ct, edits := ed } := by
  unfold qualityFix at h
  cases hof : info.outputFormat with
  | none =>
    rw [hof] at h
    dsimp only at h
    simp only [Except.ok.injEq] at h
    exact ⟨info.contentType, info.edits, by rw [← h, ← hof]⟩
  | some ofv =>
    rw [hof] at h
    dsimp only at h
    by_cases htr : jsTruthy ofv
    · rw [if_pos htr] at h
      cases ofv with
      | jsNum q =>
        dsimp only at h
        simp only [Except.ok.injEq] at h
        exact ⟨_, _, h.symm⟩
      | jsBool b =>
        dsimp only at h
        simp only [Except.ok.injEq] at h
        exact ⟨_, _, h.symm⟩
      | jsNull =>
        dsimp only at h
        simp only [Except.ok.injEq] at h
        exact ⟨_, _, h.symm⟩
      | jsObj p =>
        dsimp only at h
        simp only [Except.ok.injEq] at h
        exact ⟨_, _, h.symm⟩
      | jsStr s =>
        dsimp only at h
        by_cases hcond : (info.requestType = .CUSTOM ∨ info.requestType = .THUMBOR) ∧
            s ∈ acceptedFormats
        · rw [if_pos hcond] at h
          cases hedits : info.edits with
          | none =>
            rw [hedits] at h
            dsimp only at h
            exact absurd h (by simp)
          | some e =>
            rw [hedits] at h
            dsimp only at h
            cases hqk : ((e.map Prod.fst).filter
                (fun key => decide (key ∈ acceptedFormats))).head? with
            | none =>
              rw [hqk] at h
              dsimp only at h
              simp only [Except.ok.injEq] at h
              exact ⟨_, _, h.symm⟩
            | some qk =>
              rw [hqk] at h
              dsimp only at h
              by_cases hne : qk ≠ s
              · rw [if_pos hne] at h
                simp only [Except.ok.injEq] at h
                exact ⟨_, _, h.symm⟩
              · rw [if_neg hne] at h
                simp only [Except.ok.injEq] at h
                exact ⟨_, _, h.symm⟩
        · rw [if_neg hcond] at h
          simp only [Except.ok.injEq] at h
          exact ⟨_, _, h.symm⟩
    · rw [if_neg htr] at h
      simp only [Except.ok.injEq] at h
      exact ⟨info.contentType, info.edits, by rw [← h, ← hof]⟩

/-- The `qualityFix` never changes the request type, output format or
reduction effort. -/
theorem qualityFix_preserves (info r : ImageRequestInfo)
    (h : qualityFix info = .ok r) :
    r.reductionEffort = info.reductionEffort ∧
    r.outputFormat = info.outputFormat ∧
    r.requestType = info.requestType := by
  obtain ⟨ct, ed, rfl⟩ := qualityFix_shape info r h
  exact ⟨rfl, rfl, rfl⟩

/-- The `svgForce` never changes the request type, content type, edits or
reduction effort. -/
theorem svgForce_fields (info : ImageRequestInfo) :
    (svgForce info).reductionEffort = info.reductionEffort ∧
    (svgForce info).requestType = info.requestType ∧
    (svgForce info).edits = info.edits ∧
    (svgForce info).contentType = info.contentType := by
  unfold svgForce
  split <;> exact ⟨rfl, rfl, rfl, rfl⟩

/-- The `svgForce` is the identity on non-SVG content. -/
theorem svgForce_id (info : ImageRequestInfo)
    (h : info.contentType ≠ str "image/svg+xml") : svgForce info = info := by
  unfold svgForce
  rw [if_neg (fun hc => h hc.1)]

/-- The `applyOutputFormat` never changes the reduction effort. -/
theorem applyOutputFormat_reduction (info : ImageRequestInfo) (o : Option JsVal) :
    (applyOutputFormat info o).reductionEffort = info.reductionEffort := by
  unfold applyOutputFormat
  split
  · split
    · split <;> [rfl; (split <;> rfl)]
    · split <;> rfl
  · split <;> rfl

/-- A successful `applyReductionEffort` preserves every field except the
reduction effort, which is preserved or set to a validated value. -/
theorem applyReductionEffort_spec (sys : Sys) (event : Event)
    (info infoA : ImageRequestInfo) (o : Option JsVal)
    (h : applyReductionEffort sys event info o = .ok infoA) :
    infoA.edits = info.edits ∧ infoA.outputFormat = info.outputFormat ∧
    infoA.requestType = info.requestType ∧ infoA.contentType = info.contentType ∧
    (infoA.reductionEffort = info.reductionEffort ∨
     ∃ v, infoA.reductionEffort = some (reductionEffortValue v)) := by
  unfold applyReductionEffort at h
  split at h
  · cases hdec : decodeRequest sys event with
    | error e => rw [hdec] at h; exact absurd h (by simp)
    | ok decoded =>
      rw [hdec] at h
      dsimp only at h
      cases hre : decoded.reductionEffort with
      | none =>
        rw [hre] at h
        simp only [Except.ok.injEq] at h
        rw [← h]
        exact ⟨rfl, rfl, rfl, rfl, Or.inl rfl⟩
      | some v =>
        rw [hre] at h
        simp only [Except.ok.injEq] at h
        rw [← h]
        exact ⟨rfl, rfl, rfl, rfl, Or.inr ⟨v, rfl⟩⟩
  · simp only [Except.ok.injEq] at h
    rw [← h]
    exact ⟨rfl, rfl, rfl, rfl, Or.inl rfl⟩

/-- The validated reduction effort always lies in `[0, 6]`. -/
theorem reductionEffort_bounds (v : JsVal) :
    0 ≤ reductionEffortValue v ∧ reductionEffortValue v ≤ 6 := by
  unfold reductionEffortValue
  cases jsTrunc v with
  | nan => exact ⟨by norm_num [DEFAULT_REDUCTION_EFFORT], by norm_num [DEFAULT_REDUCTION_EFFORT]⟩
  | posInf => exact ⟨by norm_num [DEFAULT_REDUCTION_EFFORT], by norm_num [DEFAULT_REDUCTION_EFFORT]⟩
  | negInf => exact ⟨by norm_num [DEFAULT_REDUCTION_EFFORT], by norm_num [DEFAULT_REDUCTION_EFFORT]⟩
  | int re =>
    dsimp only
    by_cases hb : 0 ≤ re ∧ re ≤ 6
    · rw [if_pos hb]; exact hb
    · rw [if_neg hb]
      exact ⟨by norm_num [DEFAULT_REDUCTION_EFFORT], by norm_num [DEFAULT_REDUCTION_EFFORT]⟩

/-- Through format negotiation, a descriptor entering with no reduction
effort leaves with none or with a validated value in `[0, 6]`. -/
theorem negotiateAndFix_reduction (sys : Sys) (event : Event)
    (info r : ImageRequestInfo) (h0 : info.reductionEffort = none)
    (h : negotiateAndFix sys event info = .ok r) :
    r.reductionEffort = none ∨
    ∃ i, r.reductionEffort = some i ∧ 0 ≤ i ∧ i ≤ 6 := by
  unfold negotiateAndFix at h
  cases hc : negotiateCond (svgForce info) with
  | error e => rw [hc] at h; exact absurd h (by simp)
  | ok b =>
    rw [hc] at h
    cases b with
    | false =>
      dsimp only at h
      left
      rw [(qualityFix_preserves _ _ h).1, (svgForce_fields info).1, h0]
    | true =>
      dsimp only at h
      cases hg : getOutputFormat sys event (svgForce info).requestType with
      | error e => rw [hg] at h; exact absurd h (by simp)
      | ok outputFormat =>
        rw [hg] at h
        dsimp only at h
        cases ha : applyReductionEffort sys event (svgForce info) outputFormat with
        | error e => rw [ha] at h; exact absurd h (by simp)
        | ok infoA =>
          rw [ha] at h
          dsimp only at h
          have hq := (qualityFix_preserves _ _ h).1
          have hao := applyOutputFormat_reduction infoA outputFormat
          rcases (applyReductionEffort_spec sys event _ _ _ ha).2.2.2.2 with
            hnone | ⟨v, hv⟩
          · left
            rw [hq, hao, hnone, (svgForce_fields info).1, h0]
          · right
            exact ⟨reductionEffortValue v, by rw [hq, hao, hv],
              (reductionEffort_bounds v).1, (reductionEffort_bounds v).2⟩

/-- C9: the stored reduction effort is the integer truncation (after
JavaScript ToNumber coercion, so `"3"` truncates to 3, `null` to 0 and
`true` to 1) of the decoded record's value when that truncation is a
number in `[0, 6]`, and the default 4 otherwise (NaN and the infinities
fail the validation); it always lies in `[0, 6]`; when the negotiated
candidate is `webp`, the dialect is Default and the (non-SVG-content)
record carries a value, the produced descriptor stores exactly this
validated value; and every descriptor `setup` produces has reduction
effort absent or within `[0, 6]`. -/
theorem reductionEffort_spec :
    (∀ v, 0 ≤ reductionEffortValue v ∧ reductionEffortValue v ≤ 6) ∧
    (∀ v i, jsTrunc v = .int i →
      reductionEffortValue v = if 0 ≤ i ∧ i ≤ 6 then i else 4) ∧
    (∀ v, jsTrunc v = .nan ∨ jsTrunc v = .posInf ∨ jsTrunc v = .negInf →
      reductionEffortValue v = 4) ∧
    (∀ sys event info r d v,
      info.requestType = .DEFAULT →
      info.contentType ≠ str "image/svg+xml" →
      getOutputFormat sys event .DEFAULT = .ok (some (.jsStr (str "webp"))) →
      decodeRequest sys event = .ok d →
      d.reductionEffort = some v →
      negotiateAndFix sys event info = .ok r →
      r.reductionEffort = some (reductionEffortValue v)) ∧
    (∀ sys event r, setup sys event = .ok r →
      r.reductionEffort = none ∨
      ∃ i, r.reductionEffort = some i ∧ 0 ≤ i ∧ i ≤ 6) := by
  refine ⟨reductionEffort_bounds, ?_, ?_, ?_, ?_⟩
  · intro v i hv
    unfold reductionEffortValue
    rw [hv]
    rfl
  · intro v hv
    unfold reductionEffortValue
    rcases hv with hv | hv | hv <;> rw [hv] <;> rfl
  · intro sys event info r d v hrt hct hgo hdec hre h
    unfold negotiateAndFix at h
    rw [svgForce_id info hct] at h
    have hcond : negotiateCond info = .ok true := by
      unfold negotiateCond
      rw [if_pos hct]
    rw [hcond] at h
    dsimp only at h
    rw [hrt, hgo] at h
    dsimp only at h
    have happ : applyReductionEffort sys event info (some (.jsStr (str "webp"))) =
        .ok { info with reductionEffort := some (reductionEffortValue v) } := by
      unfold applyReductionEffort
      rw [if_pos ⟨rfl, hrt⟩, hdec]
      dsimp only
      rw [hre]
    rw [happ] at h
    dsimp only at h
    rw [(qualityFix_preserves _ _ h).1, applyOutputFormat_reduction]
  · intro sys event r h
    unfold setup at h
    cases h1 : validateRequestSignature sys event with
    | error e => rw [h1] at h; exact absurd h (by simp)
    | ok u =>
      rw [h1] at h
      dsimp only at h
      cases h2 : parseRequestType sys event with
      | error e => rw [h2] at h; exact absurd h (by simp)
      | ok requestType =>
        rw [h2] at h
        dsimp only at h
        cases h3 : parseImageKey sys event requestType with
        | error e => rw [h3] at h; exact absurd h (by simp)
        | ok keyOpt =>
          rw [h3] at h
          dsimp only at h
          cases h4 : parseImageBucket sys event requestType keyOpt with
          | error e => rw [h4] at h; exact absurd h (by simp)
          | ok bucket =>
            rw [h4] at h
            dsimp only at h
            cases keyOpt with
            | none => exact absurd h (by simp)
            | some key0 =>
              dsimp only at h
              cases h5 : parseImageEdits sys event requestType with
              | error e => rw [h5] at h; exact absurd h (by simp)
              | ok edits =>
                rw [h5] at h
                dsimp only at h
                cases h6 : getOriginalImage sys bucket (trialKey sys bucket key0) with
                | error e => rw [h6] at h; exact absurd h (by simp)
                | ok orig =>
                  rw [h6] at h
                  dsimp only at h
                  cases h7 : parseImageHeaders sys event requestType with
                  | error e => rw [h7] at h; exact absurd h (by simp)
                  | ok headers =>
                    rw [h7] at h
                    dsimp only at h
                    exact negotiateAndFix_reduction sys event _ r rfl h

/-- Witness for C8: renaming the quality key `png` to the output format
`webp` transfers its value and removes the old key. -/
theorem qualityFix_spec_witness :
    objGet (objDelete (objSet
      [(str "png", JsVal.jsNum 80), (str "grayscale", JsVal.jsBool true)]
      (str "webp") (JsVal.jsNum 80)) (str "png")) (str "webp") =
      some (JsVal.jsNum 80) ∧
    objGet (objDelete (objSet
      [(str "png", JsVal.jsNum 80), (str "grayscale", JsVal.jsBool true)]
      (str "webp") (JsVal.jsNum 80)) (str "png")) (str "png") = none :=
  ⟨(qualityFix_spec.2.1
      [(str "png", JsVal.jsNum 80), (str "grayscale", JsVal.jsBool true)]
      (str "webp") (str "png") (JsVal.jsNum 80) (by decide)).1,
   (qualityFix_spec.2.1
      [(str "png", JsVal.jsNum 80), (str "grayscale", JsVal.jsBool true)]
      (str "webp") (str "png") (JsVal.jsNum 80) (by decide)).2.1⟩

/-- Witness for C9: number 9 truncates out of range and yields the default
4 (within `[0, 6]`); number 3 is kept; by ToNumber coercion the string
`"3"` truncates to 3, `null` to 0, `true` to 1, the string `" 2"` trims
to 2 and `"-1"` truncates out of range; the non-numeric string `"abc"`
and a plain object coerce to NaN and yield the default. -/
theorem reductionEffort_spec_witness :
    (0 ≤ reductionEffortValue (JsVal.jsNum 9) ∧
      reductionEffortValue (JsVal.jsNum 9) ≤ 6) ∧
    reductionEffortValue (JsVal.jsNum 9) = 4 ∧
    reductionEffortValue (JsVal.jsNum 3) = 3 ∧
    reductionEffortValue (JsVal.jsStr (str "3")) = 3 ∧
    reductionEffortValue JsVal.jsNull = 0 ∧
    reductionEffortValue (JsVal.jsBool true) = 1 ∧
    reductionEffortValue (JsVal.jsStr (str " 2")) = 2 ∧
    reductionEffortValue (JsVal.jsStr (str "-1")) = 4 ∧
    reductionEffortValue (JsVal.jsStr (str "abc")) = 4 ∧
    reductionEffortValue (JsVal.jsObj (str "[object Object]")) = 4 :=
  ⟨reductionEffort_spec.1 (JsVal.jsNum 9),
   (reductionEffort_spec.2.1 (JsVal.jsNum 9) 9 (by decide)).trans (by decide),
   (reductionEffort_spec.2.1 (JsVal.jsNum 3) 3 (by decide)).trans (by decide),
   (reductionEffort_spec.2.1 (JsVal.jsStr (str "3")) 3 (by decide)).trans (by decide),
   (reductionEffort_spec.2.1 JsVal.jsNull 0 (by decide)).trans (by decide),
   (reductionEffort_spec.2.1 (JsVal.jsBool true) 1 (by decide)).trans (by decide),
   (reductionEffort_spec.2.1 (JsVal.jsStr (str " 2")) 2 (by decide)).trans (by decide),
   (reductionEffort_spec.2.1 (JsVal.jsStr (str "-1")) (-1) (by decide)).trans (by decide),
   reductionEffort_spec.2.2.1 (JsVal.jsStr (str "abc")) (Or.inl (by decide)),
   reductionEffort_spec.2.2.1 (JsVal.jsObj (str "[object Object]")) (Or.inl (by decide))⟩

/-- C10: for an SVG original with a non-empty edit set and no `toFormat`
edit, the output format is first forced to PNG; because that forced value
makes the negotiation guard true, the negotiation step still runs, and with
auto-WebP enabled and an Accept header admitting `image/webp` the final
output format of the produced descriptor is WEBP, not PNG. -/
theorem svg_autoWebp_override (sys : Sys) (event : Event)
    (info : ImageRequestInfo) (e : Edits) (r : ImageRequestInfo)
    (hct : info.contentType = str "image/svg+xml")
    (hed : info.edits = some e) (hne : e ≠ [])
    (htf : objGet e (str "toFormat") = none)
    (hweb : sys.env.AUTO_WEBP = some (str "Yes"))
    (hacc : acceptsWebp event = true)
    (h : negotiateAndFix sys event info = .ok r) :
    svgForce info = { info with outputFormat := some (.jsStr (str "png")) } ∧
    r.outputFormat = some (.jsStr (str "webp")) := by
  have hsf : svgForce info = { info with outputFormat := some (.jsStr (str "png")) } := by
    unfold svgForce
    rw [if_pos ⟨hct,
      by rw [hed]; simpa [editsNonEmpty, List.isEmpty_iff] using hne,
      by rw [hed]; simp [editsToFormatFalsy, jsTruthyOpt, htf]⟩]
  refine ⟨hsf, ?_⟩
  unfold negotiateAndFix at h
  rw [hsf] at h
  have hcond : negotiateCond { info with outputFormat := some (.jsStr (str "png")) } =
      .ok true := by
    unfold negotiateCond
    rw [if_neg (fun hc => hc hct)]
    dsimp only
    rw [hed]
    dsimp only
    rw [htf]
    decide
  rw [hcond] at h
  dsimp only at h
  have hgo : getOutputFormat sys event
      ({ info with outputFormat := some (.jsStr (str "png")) }).requestType =
      .ok (some (.jsStr (str "webp"))) := by
    unfold getOutputFormat
    rw [if_pos ⟨hweb, hacc⟩]
  rw [hgo] at h
  dsimp only at h
  cases ha : applyReductionEffort sys event
      { info with outputFormat := some (.jsStr (str "png")) }
      (some (.jsStr (str "webp"))) with
  | error e2 => rw [ha] at h; exact absurd h (by simp)
  | ok infoA =>
    rw [ha] at h
    dsimp only at h
    have hAe : infoA.edits = some e := by
      rw [(applyReductionEffort_spec sys event _ _ _ ha).1]
      exact hed
    have hout : (applyOutputFormat infoA (some (.jsStr (str "webp")))).outputFormat =
        some (.jsStr (str "webp")) := by
      unfold applyOutputFormat
      rw [hAe]
      dsimp only
      rw [htf]
      dsimp only
      rw [if_pos (by decide : jsTruthyOpt (some (.jsStr (str "webp"))) = true)]
    rw [(qualityFix_preserves _ _ h).2.1, hout]

/-- Witness for C10: the forced PNG is overridden to WEBP. -/
theorem svg_autoWebp_override_witness :
    svgForce infoC10 = { infoC10 with outputFormat := some (.jsStr (str "png")) } ∧
    rC10.outputFormat = some (.jsStr (str "webp")) :=
  svg_autoWebp_override sysC10 evC10 infoC10 [(str "grayscale", .jsBool true)] rC10
    rfl rfl (by decide) (by decide) rfl (by decide) (by decide)

end ImageHandler
